import Mathlib

/-!
Verification of the huldra per-artifact coordination core.

This file shallowly embeds the state-machine code of
`src/huldra/storage/state.py` (class `StateManager`), the call-site
composition in `src/huldra/core/huldra.py`, the configuration serializer
of `src/huldra/__init__.py` (class `HuldraSerializer`), and the migration
entry point `src/gren/migrate.py`, and proves or refutes the testable
properties stated for them.

Conventions of the embedding:
* Machine timestamps are UTC epoch seconds (`Nat`).  The strings the code
  stores in `state.json` are produced by `formatTimestamp`, a concrete
  implementation of `datetime.isoformat(timespec="seconds")` for aware UTC
  datetimes, and read back by `parseIsoTimestamp`, a concrete
  implementation of the subset of `datetime.fromisoformat` relevant here
  (the code itself only ever writes `YYYY-MM-DDTHH:MM:SS+00:00`).
* Python `dict[str, ...]` values are association lists with Python's
  update semantics (`dictSet` / `dictUpdate`).
* A Python function that may raise is embedded as `Except String`;
  `StateManager.update_state` writes nothing when the mutator raises.
-/

namespace Huldra

/-- Epoch seconds, UTC. -/
abbrev Inst := Nat

/-- Left-pad the decimal rendering of `n` with zeros to width `w`. -/
def padNum (w n : Nat) : String :=
  let s := toString n
  String.mk (List.replicate (w - s.length) '0') ++ s

/-- Convert days since 1970-01-01 to a civil date (y, m, d).
Standard era-based algorithm, as used by CPython's date arithmetic. -/
def civilFromDays (z0 : Nat) : Nat × Nat × Nat :=
  let z := z0 + 719468
  let era := z / 146097
  let doe := z % 146097
  let yoe := (doe - doe / 1460 + doe / 36524 - doe / 146096) / 365
  let y := yoe + era * 400
  let doy := doe - (365 * yoe + yoe / 4 - yoe / 100)
  let mp := (5 * doy + 2) / 153
  let d := doy - (153 * mp + 2) / 5 + 1
  let m := if mp < 10 then mp + 3 else mp - 9
  (if m ≤ 2 then y + 1 else y, m, d)

/-- Convert a civil date (year ≥ 1970) to days since 1970-01-01. -/
def daysFromCivil (y m d : Nat) : Nat :=
  let y' := if m ≤ 2 then y - 1 else y
  let era := y' / 400
  let yoe := y' % 400
  let mp := if 2 < m then m - 3 else m + 9
  let doy := (153 * mp + 2) / 5 + d - 1
  let doe := yoe * 365 + yoe / 4 - yoe / 100 + doy
  era * 146097 + doe - 719468

/-- Embedding of `StateManager._iso_now` /
`datetime.isoformat(timespec="seconds")` for an aware UTC datetime. -/
def formatTimestamp (t : Inst) : String :=
  let days := t / 86400
  let rem := t % 86400
  let ymd := civilFromDays days
  padNum 4 ymd.1 ++ "-" ++ padNum 2 ymd.2.1 ++ "-" ++ padNum 2 ymd.2.2 ++ "T" ++
    padNum 2 (rem / 3600) ++ ":" ++ padNum 2 (rem % 3600 / 60) ++ ":" ++
    padNum 2 (rem % 60) ++ "+00:00"

/-- Decimal digit value of a character, if it is a digit. -/
def digitVal (c : Char) : Option Nat :=
  if c.isDigit then some (c.toNat - 48) else none

/-- Value of a fixed list of digit characters, if all are digits. -/
def digitsVal (cs : List Char) : Option Nat :=
  cs.foldl (fun acc c => do
    let a ← acc
    let d ← digitVal c
    pure (a * 10 + d)) (some 0)

/-- Embedding of `StateManager._parse_time`: parse an ISO-8601 timestamp
string to a UTC instant, `none` when the string is empty or unparseable.
Modelled subset of `datetime.fromisoformat`: seconds precision, optional
UTC designator (`+00:00` or `Z`); a naive string is treated as UTC
(the code replaces a missing tzinfo with UTC).  Years before 1970 and
non-UTC offsets are out of the model and parse to `none`; the state code
only ever writes `+00:00`-suffixed strings. -/
def parseIsoTimestamp (s : String) : Option Inst :=
  match s.toList with
  | y1 :: y2 :: y3 :: y4 :: '-' :: m1 :: m2 :: '-' :: d1 :: d2 :: sep ::
      h1 :: h2 :: ':' :: n1 :: n2 :: ':' :: s1 :: s2 :: rest =>
    if (sep = 'T' ∨ sep = ' ') ∧
        (rest = [] ∨ rest = ['+', '0', '0', ':', '0', '0'] ∨ rest = ['Z']) then
      match digitsVal [y1, y2, y3, y4], digitsVal [m1, m2], digitsVal [d1, d2],
          digitsVal [h1, h2], digitsVal [n1, n2], digitsVal [s1, s2] with
      | some y, some mo, some d, some h, some mi, some sec =>
        if 1970 ≤ y ∧ 1 ≤ mo ∧ mo ≤ 12 ∧ 1 ≤ d ∧ d ≤ 31 ∧
            h < 24 ∧ mi < 60 ∧ sec < 60 then
          some (daysFromCivil y mo d * 86400 + h * 3600 + mi * 60 + sec)
        else none
      | _, _, _, _, _, _ => none
    else none
  | _ => none

/-- Python `dict.__setitem__`: update in place if the key exists,
append otherwise. -/
def dictSet (d : List (String × String)) (k v : String) :
    List (String × String) :=
  if d.any (fun p => p.1 = k) then
    d.map (fun p => if p.1 = k then (k, v) else p)
  else d ++ [(k, v)]

/-- Python `dict.update`. -/
def dictUpdate (d kvs : List (String × String)) : List (String × String) :=
  kvs.foldl (fun acc p => dictSet acc p.1 p.2) d

/-- Embedding of `_HuldraErrorState`. -/
structure HuldraErrorState where
  type : String
  message : String
  traceback : Option String
deriving DecidableEq, Repr

/-- Embedding of `_StateOwner` (pydantic model; `host`/`hostname` are
synchronized by a before-validator at validation time). -/
structure StateOwner where
  pid : Option Int := none
  host : Option String := none
  hostname : Option String := none
  user : Option String := none
  command : Option String := none
  timestamp : Option String := none
  python_version : Option String := none
  executable : Option String := none
  platform : Option String := none
deriving DecidableEq, Repr

/-- Embedding of the `_StateResult` tagged union
(`absent | incomplete | success{created_at} | failed`). -/
inductive StateResult where
  | absent
  | incomplete
  | success (created_at : String)
  | failed
deriving DecidableEq, Repr

/-- Wire form of the result discriminator. -/
def StateResult.status : StateResult → String
  | .absent => "absent"
  | .incomplete => "incomplete"
  | .success _ => "success"
  | .failed => "failed"

/-- Statuses of the generic `_StateAttemptTerminal` variant. -/
inductive TermKind where
  | cancelled
  | preempted
  | crashed
deriving DecidableEq, Repr

/-- Wire form of a terminal kind. -/
def TermKind.status : TermKind → String
  | .cancelled => "cancelled"
  | .preempted => "preempted"
  | .crashed => "crashed"

/-- Variant-specific part of the `_StateAttempt` tagged union
(`queued | running | success | failed | cancelled/preempted/crashed`). -/
inductive AttemptPhase where
  | queued
  | running
  | success (ended_at : String)
  | failed (ended_at : String) (error : HuldraErrorState) (reason : Option String)
  | terminal (kind : TermKind) (ended_at : String)
      (error : Option HuldraErrorState) (reason : Option String)
deriving DecidableEq, Repr

/-- Wire form of the attempt discriminator. -/
def AttemptPhase.status : AttemptPhase → String
  | .queued => "queued"
  | .running => "running"
  | .success _ => "success"
  | .failed _ _ _ => "failed"
  | .terminal k _ _ _ => k.status

/-- True for the claimed-active statuses `queued` and `running`. -/
def AttemptPhase.isActive : AttemptPhase → Bool
  | .queued => true
  | .running => true
  | _ => false

/-- Embedding of an attempt record (`_StateAttemptBase` common fields plus
the variant payload).  `lease_duration_sec` is a non-negative number of
seconds in this model. -/
structure StateAttempt where
  id : String
  number : Int
  backend : String
  started_at : String
  heartbeat_at : String
  lease_duration_sec : Nat
  lease_expires_at : String
  owner : StateOwner
  scheduler : List (String × String)
  phase : AttemptPhase
deriving DecidableEq, Repr

/-- Embedding of `_HuldraState`. -/
structure HuldraState where
  schema_version : Int := 1
  result : StateResult := .absent
  attempt : Option StateAttempt := none
  updated_at : Option String := none
deriving DecidableEq, Repr

/-- Embedding of `StateManager.default_state`. -/
def defaultState : HuldraState := {}

/-- Embedding of `_coerce_result`: dump the current result, overlay the
updates, and rebuild the tagged union; raises for a success result without
a non-empty `created_at`. -/
def coerceResult (current : StateResult) (status : String)
    (created_at : Option String) : Except String StateResult :=
  match status with
  | "absent" => .ok .absent
  | "incomplete" => .ok .incomplete
  | "failed" => .ok .failed
  | "success" =>
    let inherited := match current with
      | .success c => some c
      | _ => none
    match created_at.orElse (fun _ => inherited) with
    | some c => if c = "" then .error "Success result requires created_at"
                else .ok (.success c)
    | none => .error "Success result requires created_at"
  | _ => .error "Invalid result status"

/-- Final stamping done by `StateManager.update_state` before the atomic
write: `schema_version := SCHEMA_VERSION`, `updated_at := _iso_now()`. -/
def stamp (now : Inst) (s : HuldraState) : HuldraState :=
  { s with schema_version := 1, updated_at := some (formatTimestamp now) }

/-- Embedding of `StateManager.update_state`: run the mutator on the read
state; on success stamp and write, on an exception nothing is written. -/
def runUpdate (now : Inst) (mutator : HuldraState → Except String HuldraState)
    (s : HuldraState) : Except String HuldraState :=
  (mutator s).map (stamp now)

/-- Mutator of `StateManager._start_attempt`: install a fresh attempt
(number = prev + 1, or 1) and coerce the result to `incomplete`. -/
def startAttemptMutate (running : Bool) (attempt_id backend : String)
    (lease_duration_sec : Nat) (owner : StateOwner)
    (scheduler : List (String × String)) (now : Inst)
    (s : HuldraState) : Except String HuldraState := do
  let number : Int := match s.attempt with
    | some prev => prev.number + 1
    | none => 1
  let attempt : StateAttempt :=
    { id := attempt_id
      number := number
      backend := backend
      started_at := formatTimestamp now
      heartbeat_at := formatTimestamp now
      lease_duration_sec := lease_duration_sec
      lease_expires_at := formatTimestamp (now + lease_duration_sec)
      owner := owner
      scheduler := scheduler
      phase := if running then .running else .queued }
  let r ← coerceResult s.result "incomplete" none
  pure { s with attempt := some attempt, result := r }

/-- Embedding of `StateManager.start_attempt_running` /
`start_attempt_queued` as state transformers (id generation and event
append are outside the state transition). -/
def startAttempt (running : Bool) (attempt_id backend : String)
    (lease_duration_sec : Nat) (owner : StateOwner)
    (scheduler : List (String × String)) (now : Inst)
    (s : HuldraState) : Except String HuldraState :=
  runUpdate now
    (startAttemptMutate running attempt_id backend lease_duration_sec owner
      scheduler now) s

/-- Mutator of `StateManager.heartbeat`: refresh `heartbeat_at` and the
lease iff the current attempt is `running` with a matching id. -/
def heartbeatMutate (attempt_id : String) (lease_duration_sec : Nat)
    (now : Inst) (s : HuldraState) : HuldraState :=
  match s.attempt with
  | some a =>
    if a.phase = .running ∧ a.id = attempt_id then
      { s with
          attempt := some { a with
            heartbeat_at := formatTimestamp now
            lease_duration_sec := lease_duration_sec
            lease_expires_at := formatTimestamp (now + lease_duration_sec) } }
    else s
  | none => s

/-- Embedding of `StateManager.heartbeat` (the written state; the returned
`ok` flag is whether the guard matched). -/
def heartbeat (attempt_id : String) (lease_duration_sec : Nat) (now : Inst)
    (s : HuldraState) : Except String HuldraState :=
  runUpdate now (fun st => .ok (heartbeatMutate attempt_id lease_duration_sec now st)) s

/-- Mutator of `StateManager.finish_attempt_success`.  The attempt is
rewritten only when the id matches; the result coercion to `success` is
outside that guard in the source and runs unconditionally. -/
def finishSuccessMutate (attempt_id : String) (now : Inst)
    (s : HuldraState) : Except String HuldraState := do
  let s1 := match s.attempt with
    | some a =>
      if a.id = attempt_id then
        { s with attempt := some { a with phase := .success (formatTimestamp now) } }
      else s
    | none => s
  let r ← coerceResult s1.result "success" (some (formatTimestamp now))
  pure { s1 with result := r }

/-- Embedding of `StateManager.finish_attempt_success`. -/
def finishAttemptSuccess (attempt_id : String) (now : Inst)
    (s : HuldraState) : Except String HuldraState :=
  runUpdate now (finishSuccessMutate attempt_id now) s

/-- Mutator of `StateManager.finish_attempt_failed`; the coercion of the
result to `failed` is outside the id guard in the source. -/
def finishFailedMutate (attempt_id : String) (error : HuldraErrorState)
    (now : Inst) (s : HuldraState) : Except String HuldraState := do
  let s1 := match s.attempt with
    | some a =>
      if a.id = attempt_id then
        { s with
            attempt := some { a with
              phase := .failed (formatTimestamp now) error none } }
      else s
    | none => s
  let r ← coerceResult s1.result "failed" none
  pure { s1 with result := r }

/-- Embedding of `StateManager.finish_attempt_failed`. -/
def finishAttemptFailed (attempt_id : String) (error : HuldraErrorState)
    (now : Inst) (s : HuldraState) : Except String HuldraState :=
  runUpdate now (finishFailedMutate attempt_id error now) s

/-- Mutator of `StateManager.finish_attempt_preempted`; the coercion of
the result to `incomplete` is outside the id guard in the source. -/
def finishPreemptedMutate (attempt_id : String) (error : HuldraErrorState)
    (reason : Option String) (now : Inst)
    (s : HuldraState) : Except String HuldraState := do
  let s1 := match s.attempt with
    | some a =>
      if a.id = attempt_id then
        { s with
            attempt := some { a with
              phase := .terminal .preempted (formatTimestamp now)
                (some error) reason } }
      else s
    | none => s
  let r ← coerceResult s1.result "incomplete" none
  pure { s1 with result := r }

/-- Embedding of `StateManager.finish_attempt_preempted`. -/
def finishAttemptPreempted (attempt_id : String) (error : HuldraErrorState)
    (reason : Option String) (now : Inst)
    (s : HuldraState) : Except String HuldraState :=
  runUpdate now (finishPreemptedMutate attempt_id error reason now) s

/-- Embedding of `StateManager.TERMINAL_STATUSES`. -/
def TERMINAL_STATUSES : List String :=
  ["success", "failed", "cancelled", "preempted", "crashed"]

/-- Verdict mapping returned by a `submitit_probe` callback: the optional
`terminal_status` entry, the optional `reason` entry, and the remaining
entries (such as `scheduler_state`). -/
structure ProbeVerdict where
  terminal_status : Option String := none
  reason : Option String := none
  extra : List (String × String) := []

/-- Environment of one `StateManager.reconcile` call: the filesystem and
process signals it consults.  `pid_alive` embeds `_pid_alive` on this
host; `probe` is the optional `submitit_probe` callback, with
`Except.error` standing for the callback raising. -/
structure ReconcileEnv where
  marker_exists : Bool
  this_host : String
  pid_alive : Int → Bool
  probe : Option (HuldraState → Except String ProbeVerdict)
  now : Inst

/-- Embedding of `StateManager._local_attempt_alive`: `none` when the
attempt belongs to another host or has no integer pid. -/
def localAttemptAlive (env : ReconcileEnv) (a : StateAttempt) : Option Bool :=
  if a.owner.host ≠ some env.this_host then none
  else match a.owner.pid with
    | some pid => some (env.pid_alive pid)
    | none => none

/-- Embedding of `StateManager._lease_expired`: an unparseable
`lease_expires_at` counts as expired; otherwise `now >= expires`. -/
def leaseExpired (env : ReconcileEnv) (a : StateAttempt) : Bool :=
  match parseIsoTimestamp a.lease_expires_at with
  | none => true
  | some t => decide (t ≤ env.now)

/-- Python `x or default` for the optional probe reason (falsy `None` or
empty string fall back to the default). -/
def orElseStr (r : Option String) (default : String) : String :=
  match r with
  | some s => if s = "" then default else s
  | none => s!"{default}"

/-- Tentative `(terminal_status, reason)` classification of an active
attempt in `StateManager.reconcile` (the block after the marker check),
together with the attempt whose `scheduler` the probe verdict was merged
into.  An `Except.error` is the probe raising. -/
def chooseTerminal (env : ReconcileEnv) (s : HuldraState) (a : StateAttempt) :
    Except String (Option (String × String) × StateAttempt) :=
  if a.backend = "local" then
    match localAttemptAlive env a with
    | some false => .ok (some ("crashed", "pid_dead"), a)
    | _ =>
      if leaseExpired env a then .ok (some ("crashed", "lease_expired"), a)
      else .ok (none, a)
  else if a.backend = "submitit" then
    match env.probe with
    | some p => do
      let v ← p s
      match v.terminal_status with
      | some ts =>
        if TERMINAL_STATUSES.contains ts then
          let reason := orElseStr v.reason "scheduler_terminal"
          let items := (match v.reason with
            | some r => [("reason", r)]
            | none => []) ++ v.extra
          .ok (some (ts, reason), { a with scheduler := dictUpdate a.scheduler items })
        else if leaseExpired env a then .ok (some ("crashed", "lease_expired"), a)
        else .ok (none, a)
      | none =>
        if leaseExpired env a then .ok (some ("crashed", "lease_expired"), a)
        else .ok (none, a)
    | none =>
      if leaseExpired env a then .ok (some ("crashed", "lease_expired"), a)
      else .ok (none, a)
  else
    if leaseExpired env a then .ok (some ("crashed", "lease_expired"), a)
    else .ok (none, a)

/-- Terminalization block of `StateManager.reconcile`: a chosen
`success` verdict is coerced to `crashed` (no marker was seen), the
attempt is rewritten as the corresponding terminal variant, and the
result is coerced to `failed` exactly when the terminal is `failed`,
`incomplete` otherwise. -/
def terminalize (s : HuldraState) (a : StateAttempt) (ts reason : String)
    (now : Inst) : Except String HuldraState := do
  let status := if ts = "success" then "crashed" else ts
  let reason' := if ts = "success" then
      (if reason = "" then "scheduler_success_no_success_marker" else reason)
    else reason
  let ended := formatTimestamp now
  let err : HuldraErrorState :=
    { type := "HuldraComputeError", message := reason', traceback := none }
  let attempt : StateAttempt :=
    if status = "failed" then
      { a with phase := .failed ended err (some reason') }
    else if status = "cancelled" then
      { a with phase := .terminal .cancelled ended none (some reason') }
    else if status = "preempted" then
      { a with phase := .terminal .preempted ended none (some reason') }
    else
      { a with phase := .terminal .crashed ended none (some reason') }
  let r ← coerceResult s.result
    (if status = "failed" then "failed" else "incomplete") none
  pure { s with attempt := some attempt, result := r }

/-- Mutator of `StateManager.reconcile`:  nothing to do unless the attempt
is queued/running; promote when the success marker exists; otherwise
classify and terminalize. -/
def reconcileMutate (env : ReconcileEnv) (s : HuldraState) :
    Except String HuldraState :=
  match s.attempt with
  | none => .ok s
  | some a =>
    if a.phase.isActive then
      if env.marker_exists then do
        let ended := formatTimestamp env.now
        let r ← coerceResult s.result "success" (some ended)
        pure { s with attempt := some { a with phase := .success ended }, result := r }
      else do
        let choice ← chooseTerminal env s a
        match choice with
        | (none, _) => pure s
        | (some (ts, reason), a') => terminalize s a' ts reason env.now
    else .ok s

/-- Embedding of `StateManager.reconcile`: run the mutator under
`update_state` (stamping on success, writing nothing if the probe
raises), then unlink `.compute.lock` iff the resulting attempt status is
`crashed`, `cancelled` or `preempted`.  The returned `Bool` is whether
`.compute.lock` still exists afterwards. -/
def reconcile (env : ReconcileEnv) (s : HuldraState) (compute_lock : Bool) :
    Except String (HuldraState × Bool) :=
  match runUpdate env.now (reconcileMutate env) s with
  | .error e => .error e
  | .ok s2 =>
    let unlink := match s2.attempt with
      | some a => ["crashed", "cancelled", "preempted"].contains a.phase.status
      | none => false
    .ok (s2, if unlink then false else compute_lock)

/-- Contents of one artifact directory `D` that the coordination core
mutates: the `state.json` record, whether `SUCCESS.json` exists, and
whether `.compute.lock` exists. -/
structure SysState where
  state : HuldraState
  marker : Bool
  compute_lock : Bool

/-- Directory as first created: default state, no marker, no lock. -/
def initSys : SysState :=
  { state := defaultState, marker := false, compute_lock := false }

/-- One state-store operation on a directory, as the repository composes
them.  `runSuccess` is the success path of `Huldra._run_locally` /
`_worker_entry` (`core/huldra.py`): `write_success_marker` immediately
followed by `finish_attempt_success` — the only call sites of
`finish_attempt_success`.  `writeMarker` alone models a crash between the
two.  `invalidate` is `Huldra._invalidate_cached_success`: unlink the
marker, then set the result to `absent` (journaled as
`result_invalidated`). -/
inductive Op where
  | startQueued (attempt_id backend : String) (lease : Nat) (owner : StateOwner)
      (sched : List (String × String)) (now : Inst)
  | startRunning (attempt_id backend : String) (lease : Nat) (owner : StateOwner)
      (sched : List (String × String)) (now : Inst)
  | heartbeatOp (attempt_id : String) (lease : Nat) (now : Inst)
  | writeMarker
  | runSuccess (attempt_id : String) (now : Inst)
  | finishFailedOp (attempt_id : String) (error : HuldraErrorState) (now : Inst)
  | finishPreemptedOp (attempt_id : String) (error : HuldraErrorState)
      (reason : Option String) (now : Inst)
  | reconcileOp (this_host : String) (pid_alive : Int → Bool)
      (probe : Option (HuldraState → Except String ProbeVerdict)) (now : Inst)
  | invalidate (now : Inst)
  | acquireComputeLock
  | releaseComputeLock

/-- Apply a state-store mutation to the directory; a raising mutator
writes nothing (`update_state` releases the state lock and propagates). -/
def applyExcept (sys : SysState) (r : Except String HuldraState) : SysState :=
  match r with
  | .ok s' => { sys with state := s' }
  | .error _ => sys

/-- Small-step semantics of one operation on the directory. -/
def step (sys : SysState) (op : Op) : SysState :=
  match op with
  | .startQueued aid backend lease owner sched now =>
    applyExcept sys (startAttempt false aid backend lease owner sched now sys.state)
  | .startRunning aid backend lease owner sched now =>
    applyExcept sys (startAttempt true aid backend lease owner sched now sys.state)
  | .heartbeatOp aid lease now =>
    applyExcept sys (heartbeat aid lease now sys.state)
  | .writeMarker => { sys with marker := true }
  | .runSuccess aid now =>
    applyExcept { sys with marker := true } (finishAttemptSuccess aid now sys.state)
  | .finishFailedOp aid err now =>
    applyExcept sys (finishAttemptFailed aid err now sys.state)
  | .finishPreemptedOp aid err reason now =>
    applyExcept sys (finishAttemptPreempted aid err reason now sys.state)
  | .reconcileOp host alive probe now =>
    let env : ReconcileEnv :=
      { marker_exists := sys.marker, this_host := host, pid_alive := alive
        probe := probe, now := now }
    match reconcile env sys.state sys.compute_lock with
    | .ok (s', lock') => { sys with state := s', compute_lock := lock' }
    | .error _ => sys
  | .invalidate now =>
    applyExcept { sys with marker := false }
      (runUpdate now (fun st => .ok { st with result := .absent }) sys.state)
  | .acquireComputeLock => { sys with compute_lock := true }
  | .releaseComputeLock => { sys with compute_lock := false }

/-- Run a sequence of operations from a freshly created directory. -/
def runOps (ops : List Op) : SysState :=
  ops.foldl step initSys

/-- Parsed JSON document (the output of a successful `json.loads`). -/
inductive Json where
  | null
  | bool (b : Bool)
  | num (n : Int)
  | str (s : String)
  | arr (elements : List Json)
  | obj (fields : List (String × Json))

/-- Python `dict.get` on a parsed JSON object (`json.loads` keeps the
last occurrence of a duplicated key). -/
def jsonLookup (kvs : List (String × Json)) (k : String) : Option Json :=
  (kvs.reverse.find? (fun p => p.1 = k)).map (fun p => p.2)

/-- Keys of a parsed JSON object. -/
def jsonKeys (kvs : List (String × Json)) : List String :=
  kvs.map (fun p => p.1)

/-- Check `data.get("schema_version") == SCHEMA_VERSION` (an int equal
to 1). -/
def isVersion1 (v : Option Json) : Bool :=
  match v with
  | some (.num n) => n == 1
  | _ => false

/-- Pydantic decoding of an `Optional[str]` field (default `None`):
missing and `null` give `none`; a string gives `some`; anything else
fails validation. -/
def decodeOptStr (v : Option Json) : Option (Option String) :=
  match v with
  | none => some none
  | some .null => some none
  | some (.str s) => some (some s)
  | some _ => none

/-- Pydantic decoding of an `Optional[int]` field (default `None`). -/
def decodeOptInt (v : Option Json) : Option (Option Int) :=
  match v with
  | none => some none
  | some .null => some none
  | some (.num n) => some (some n)
  | some _ => none

/-- Pydantic decoding of a required `str` field. -/
def decodeStr (v : Option Json) : Option String :=
  match v with
  | some (.str s) => some s
  | _ => none

/-- Pydantic `extra="forbid"`: every present key must be declared. -/
def keysAllowed (kvs : List (String × Json)) (allowed : List String) : Bool :=
  (jsonKeys kvs).all (fun k => allowed.contains k)

/-- Declared fields of `_StateOwner`. -/
def ownerKeys : List String :=
  ["pid", "host", "hostname", "user", "command", "timestamp",
   "python_version", "executable", "platform"]

/-- Python `data[k] = v` on a JSON object. -/
def jsonSet (kvs : List (String × Json)) (k : String) (v : Json) :
    List (String × Json) :=
  if kvs.any (fun p => p.1 = k) then
    kvs.map (fun p => if p.1 = k then (k, v) else p)
  else kvs ++ [(k, v)]

/-- Validation of `_StateOwner`, including the `_normalize_host_keys`
before-validator that copies `hostname` into a missing `host` and vice
versa. -/
def validateOwner (j : Json) : Option StateOwner :=
  match j with
  | .obj kvs0 =>
    let hostV := jsonLookup kvs0 "host"
    let hostnameV := jsonLookup kvs0 "hostname"
    let isNoneV := fun (v : Option Json) =>
      match v with
      | none => true
      | some .null => true
      | some _ => false
    let kvs :=
      if isNoneV hostV && !isNoneV hostnameV then
        jsonSet kvs0 "host" (hostnameV.getD .null)
      else if isNoneV hostnameV && !isNoneV hostV then
        jsonSet kvs0 "hostname" (hostV.getD .null)
      else kvs0
    if keysAllowed kvs ownerKeys then do
      let pid ← decodeOptInt (jsonLookup kvs "pid")
      let host ← decodeOptStr (jsonLookup kvs "host")
      let hostname ← decodeOptStr (jsonLookup kvs "hostname")
      let user ← decodeOptStr (jsonLookup kvs "user")
      let command ← decodeOptStr (jsonLookup kvs "command")
      let timestamp ← decodeOptStr (jsonLookup kvs "timestamp")
      let python_version ← decodeOptStr (jsonLookup kvs "python_version")
      let executable ← decodeOptStr (jsonLookup kvs "executable")
      let platform ← decodeOptStr (jsonLookup kvs "platform")
      pure { pid, host, hostname, user, command, timestamp,
             python_version, executable, platform }
    else none
  | _ => none

/-- Validation of `_HuldraErrorState` (`type` and `message` are non-null
strings with defaults, `traceback` optional). -/
def validateError (j : Json) : Option HuldraErrorState :=
  match j with
  | .obj kvs =>
    if keysAllowed kvs ["type", "message", "traceback"] then do
      let ty ← match jsonLookup kvs "type" with
        | none => some "UnknownError"
        | some (.str s) => some s
        | some _ => none
      let msg ← match jsonLookup kvs "message" with
        | none => some ""
        | some (.str s) => some s
        | some _ => none
      let tb ← decodeOptStr (jsonLookup kvs "traceback")
      pure { type := ty, message := msg, traceback := tb }
    else none
  | _ => none

/-- Validation of the `_StateResult` discriminated union. -/
def validateResult (j : Json) : Option StateResult :=
  match j with
  | .obj kvs =>
    match jsonLookup kvs "status" with
    | some (.str "absent") =>
      if keysAllowed kvs ["status"] then some .absent else none
    | some (.str "incomplete") =>
      if keysAllowed kvs ["status"] then some .incomplete else none
    | some (.str "success") =>
      if keysAllowed kvs ["status", "created_at"] then do
        let c ← decodeStr (jsonLookup kvs "created_at")
        pure (.success c)
      else none
    | some (.str "failed") =>
      if keysAllowed kvs ["status"] then some .failed else none
    | _ => none
  | _ => none

/-- Decoding of the free-form `scheduler: dict[str, Any]` mapping.  The
state code only ever stores string values there (`job_id`,
`scheduler_state`, `reason`), and this model types them as strings. -/
def decodeScheduler (v : Option Json) : Option (List (String × String)) :=
  match v with
  | none => some []
  | some (.obj kvs) =>
    kvs.foldr (fun p acc => do
      let rest ← acc
      match p.2 with
      | .str s => some ((p.1, s) :: rest)
      | _ => none) (some [])
  | some _ => none

/-- Declared common fields of `_StateAttemptBase`. -/
def attemptBaseKeys : List String :=
  ["id", "number", "backend", "status", "started_at", "heartbeat_at",
   "lease_duration_sec", "lease_expires_at", "owner", "scheduler"]

/-- Validation of the `_StateAttempt` discriminated union. -/
def validateAttempt (j : Json) : Option StateAttempt :=
  match j with
  | .obj kvs => do
    let common := fun (phase : AttemptPhase) (extraKeys : List String) => do
      if keysAllowed kvs (attemptBaseKeys ++ extraKeys) then do
        let id ← decodeStr (jsonLookup kvs "id")
        let number ← match jsonLookup kvs "number" with
          | none => some (1 : Int)
          | some (.num n) => some n
          | some _ => none
        let backend ← decodeStr (jsonLookup kvs "backend")
        let started_at ← decodeStr (jsonLookup kvs "started_at")
        let heartbeat_at ← decodeStr (jsonLookup kvs "heartbeat_at")
        let lease ← match jsonLookup kvs "lease_duration_sec" with
          | some (.num n) => if 0 ≤ n then some n.toNat else none
          | some _ => none
          | none => none
        let lease_expires_at ← decodeStr (jsonLookup kvs "lease_expires_at")
        let owner ← match jsonLookup kvs "owner" with
          | some oj => validateOwner oj
          | none => none
        let scheduler ← decodeScheduler (jsonLookup kvs "scheduler")
        pure { id, number, backend, started_at, heartbeat_at,
               lease_duration_sec := lease, lease_expires_at, owner,
               scheduler, phase : StateAttempt }
      else none
    let endedAt := fun (_ : Unit) => decodeStr (jsonLookup kvs "ended_at")
    let optReason := fun (_ : Unit) => decodeOptStr (jsonLookup kvs "reason")
    match jsonLookup kvs "status" with
    | some (.str "queued") => common .queued []
    | some (.str "running") => common .running []
    | some (.str "success") => do
      let e ← endedAt ()
      match jsonLookup kvs "reason" with
      | none => common (.success e) ["ended_at", "reason"]
      | some .null => common (.success e) ["ended_at", "reason"]
      | some _ => none
    | some (.str "failed") => do
      let e ← endedAt ()
      let err ← match jsonLookup kvs "error" with
        | some ej => validateError ej
        | none => none
      let r ← optReason ()
      common (.failed e err r) ["ended_at", "error", "reason"]
    | some (.str "cancelled") => do
      let e ← endedAt ()
      let err ← match jsonLookup kvs "error" with
        | none => some none
        | some .null => some none
        | some ej => (validateError ej).map some
      let r ← optReason ()
      common (.terminal .cancelled e err r) ["ended_at", "error", "reason"]
    | some (.str "preempted") => do
      let e ← endedAt ()
      let err ← match jsonLookup kvs "error" with
        | none => some none
        | some .null => some none
        | some ej => (validateError ej).map some
      let r ← optReason ()
      common (.terminal .preempted e err r) ["ended_at", "error", "reason"]
    | some (.str "crashed") => do
      let e ← endedAt ()
      let err ← match jsonLookup kvs "error" with
        | none => some none
        | some .null => some none
        | some ej => (validateError ej).map some
      let r ← optReason ()
      common (.terminal .crashed e err r) ["ended_at", "error", "reason"]
    | _ => none
  | _ => none

/-- Validation of `_HuldraState` (`model_validate`). -/
def validateState (j : Json) : Option HuldraState :=
  match j with
  | .obj kvs =>
    if keysAllowed kvs ["schema_version", "result", "attempt", "updated_at"] then do
      let sv ← match jsonLookup kvs "schema_version" with
        | none => some (1 : Int)
        | some (.num n) => some n
        | some _ => none
      let result ← match jsonLookup kvs "result" with
        | none => some .absent
        | some rj => validateResult rj
      let attempt ← match jsonLookup kvs "attempt" with
        | none => some none
        | some .null => some none
        | some aj => (validateAttempt aj).map some
      let updated_at ← decodeOptStr (jsonLookup kvs "updated_at")
      pure { schema_version := sv, result, attempt, updated_at }
    else none
  | _ => none

/-- Contents of `state.json` as found on disk: absent (or unreadable),
present but not valid JSON, or parsed JSON. -/
inductive StateFileContents where
  | missing
  | unparseable (raw : String)
  | parsed (j : Json)

/-- Path of the state file (`StateManager.get_state_path`). -/
def statePath (directory : String) : String :=
  directory ++ "/state.json"

/-- Embedding of `StateManager.read_state`: default state when the file
cannot be read; a fatal error naming the path on invalid JSON, a
non-object document, an unsupported `schema_version`, or schema
validation failure. -/
def read_state (directory : String) (f : StateFileContents) :
    Except String HuldraState :=
  match f with
  | .missing => .ok defaultState
  | .unparseable _ =>
    .error ("Invalid JSON in state file: " ++ statePath directory)
  | .parsed j =>
    match j with
    | .obj kvs =>
      if isVersion1 (jsonLookup kvs "schema_version") then
        match validateState (.obj kvs) with
        | some st => .ok st
        | none => .error ("Invalid state schema: " ++ statePath directory)
      else
        .error ("Unsupported state schema_version (expected 1): " ++
          statePath directory)
    | _ => .error ("Invalid state file (expected object): " ++ statePath directory)

end Huldra

namespace HuldraSerializer

/-- Python value in the domain of `HuldraSerializer` (`__init__.py`):
chz configuration objects, paths, enums, containers and JSON atoms.
Floats, bytes, datetimes, sets and pydantic models are outside this
model.  A `vchz` node carries the fully qualified class name
(`get_classname`) and the chz fields in declaration order. -/
inductive HVal where
  | vnull
  | vbool (b : Bool)
  | vint (n : Int)
  | vstr (s : String)
  | vpath (s : String)
  | venum (classname : String)
  | vlist (xs : List HVal)
  | vtuple (xs : List HVal)
  | vdict (kvs : List (String × HVal))
  | vchz (classname : String) (fields : List (String × HVal))

mutual

/-- Embedding of `HuldraSerializer.to_dict`: chz objects become dicts
with a `__class__` marker first, paths become strings, tuples become
lists, containers recurse, everything else passes through. -/
def toDict : HVal → HVal
  | .vnull => .vnull
  | .vbool b => .vbool b
  | .vint n => .vint n
  | .vstr s => .vstr s
  | .vpath s => .vstr s
  | .venum c => .venum c
  | .vlist xs => .vlist (toDictList xs)
  | .vtuple xs => .vlist (toDictList xs)
  | .vdict kvs => .vdict (toDictFields kvs)
  | .vchz c fs => .vdict (("__class__", .vstr c) :: toDictFields fs)

/-- Recursion of `toDict` into a list. -/
def toDictList : List HVal → List HVal
  | [] => []
  | x :: xs => toDict x :: toDictList xs

/-- Recursion of `toDict` into dict / chz fields. -/
def toDictFields : List (String × HVal) → List (String × HVal)
  | [] => []
  | (k, v) :: rest => (k, toDict v) :: toDictFields rest

end

/-- Lookup in a Python dict modelled as an association list with unique
keys. -/
def assocLookup (kvs : List (String × HVal)) (k : String) : Option HVal :=
  (kvs.find? (fun p => p.1 = k)).map (fun p => p.2)

/-- Path coercion of `from_dict`: keyword arguments whose name is a
declared Path-typed chz field and whose value is a string become
`pathlib.Path` values. -/
def coercePathFields (pathFields : List String)
    (kwargs : List (String × HVal)) : List (String × HVal) :=
  kwargs.map (fun p =>
    if pathFields.contains p.1 then
      match p.2 with
      | .vstr s => (p.1, HVal.vpath s)
      | v => (p.1, v)
    else p)

/-- Path-typed chz fields of each importable configuration class, as
`chz.chz_fields(data_class)` exposes them to `from_dict` (classes not
listed have no Path-typed fields). -/
abbrev ClassTable := List (String × List String)

mutual

/-- Embedding of `HuldraSerializer.from_dict`.  A dict containing the
`__class__` marker is reconstructed as an instance of that class from the
remaining entries, coercing declared Path fields from strings
(`data_class(**kwargs)` is modelled as storing the keyword arguments as
fields).  A non-string marker raises (`.rpartition` on a non-string);
the raise is modelled as `Except.error`. -/
def fromDict (tbl : ClassTable) : HVal → Except String HVal
  | .vdict kvs =>
    match assocLookup kvs "__class__" with
    | some (.vstr cls) => do
      let kwargs ← fromDictKwargs tbl kvs
      let pathFields := ((tbl.find? (fun p => p.1 = cls)).map (fun p => p.2)).getD []
      pure (.vchz cls (coercePathFields pathFields kwargs))
    | some _ => .error "class marker is not a string"
    | none => do
      let kvs' ← fromDictFields tbl kvs
      pure (.vdict kvs')
  | .vlist xs => do
    let xs' ← fromDictList tbl xs
    pure (.vlist xs')
  | v => .ok v

/-- Recursion of `fromDict` into a list. -/
def fromDictList (tbl : ClassTable) : List HVal → Except String (List HVal)
  | [] => .ok []
  | x :: xs => do
    let x' ← fromDict tbl x
    let xs' ← fromDictList tbl xs
    pure (x' :: xs')

/-- Recursion of `fromDict` into dict values. -/
def fromDictFields (tbl : ClassTable) :
    List (String × HVal) → Except String (List (String × HVal))
  | [] => .ok []
  | (k, v) :: rest => do
    let v' ← fromDict tbl v
    let rest' ← fromDictFields tbl rest
    pure ((k, v') :: rest')

/-- Kwargs comprehension of `from_dict`:
`{k: from_dict(v) for k, v in data.items() if k != CLASS_MARKER}`. -/
def fromDictKwargs (tbl : ClassTable) :
    List (String × HVal) → Except String (List (String × HVal))
  | [] => .ok []
  | (k, v) :: rest =>
    if k = "__class__" then fromDictKwargs tbl rest
    else do
      let v' ← fromDict tbl v
      let rest' ← fromDictKwargs tbl rest
      pure ((k, v') :: rest')

end

/-- Sort dict entries by key (`sorted(item.items())`; keys are unique in
a Python dict, so the key decides). -/
def insertByKey (p : String × Huldra.Json) :
    List (String × Huldra.Json) → List (String × Huldra.Json)
  | [] => [p]
  | q :: rest =>
    if p.1 ≤ q.1 then p :: q :: rest else q :: insertByKey p rest

/-- Insertion sort of dict entries by key. -/
def sortByKey (l : List (String × Huldra.Json)) : List (String × Huldra.Json) :=
  l.foldr insertByKey []

theorem sizeOf_insertByKey (p : String × Huldra.Json) :
    ∀ l : List (String × Huldra.Json),
      sizeOf (insertByKey p l) = 1 + sizeOf p + sizeOf l := by
  intro l
  induction l with
  | nil => simp [insertByKey]
  | cons q rest ih =>
    rw [insertByKey]
    by_cases h : p.1 ≤ q.1
    · simp only [if_pos h, List.cons.sizeOf_spec]
    · simp only [if_neg h, List.cons.sizeOf_spec, ih]
      omega

theorem sizeOf_sortByKey (l : List (String × Huldra.Json)) :
    sizeOf (sortByKey l) = sizeOf l := by
  induction l with
  | nil => rfl
  | cons p rest ih =>
    show sizeOf (insertByKey p (sortByKey rest)) = _
    rw [sizeOf_insertByKey, ih, List.cons.sizeOf_spec]

mutual

/-- Embedding of Python's `name.startswith("_")` (the prefix is a single
character, so this is a first-character test; `String.startsWith` itself
does not reduce in the kernel). -/
def startsWithUnderscore (s : String) : Bool :=
  match s.data with
  | [] => false
  | c :: _ => c == '_'

/-- Embedding of the `canonicalize` closure inside
`HuldraSerializer.compute_hash`: chz objects become a `__class__`-tagged
mapping of their non-private fields (names starting with `_` are
skipped), dicts are key-sorted, paths become strings, enums become
`__enum__` tags, sequences stay in order. -/
def canonicalize : HVal → Huldra.Json
  | .vnull => .null
  | .vbool b => .bool b
  | .vint n => .num n
  | .vstr s => .str s
  | .vpath s => .str s
  | .venum c => .obj [("__enum__", .str c)]
  | .vlist xs => .arr (canonicalizeList xs)
  | .vtuple xs => .arr (canonicalizeList xs)
  | .vdict kvs => .obj (sortByKey (canonicalizeFields kvs))
  | .vchz c fs =>
    .obj (("__class__", .str c) :: canonicalizePublicFields fs)

/-- Recursion of `canonicalize` into a list. -/
def canonicalizeList : List HVal → List Huldra.Json
  | [] => []
  | x :: xs => canonicalize x :: canonicalizeList xs

/-- Recursion of `canonicalize` into dict / chz fields. -/
def canonicalizeFields : List (String × HVal) → List (String × Huldra.Json)
  | [] => []
  | (k, v) :: rest => (k, canonicalize v) :: canonicalizeFields rest

/-- Field comprehension of `canonicalize` on a chz object:
`{name: canonicalize(...) for name in fields if not name.startswith("_")}`
(private fields are skipped, never canonicalized). -/
def canonicalizePublicFields : List (String × HVal) → List (String × Huldra.Json)
  | [] => []
  | (k, v) :: rest =>
    if startsWithUnderscore k then canonicalizePublicFields rest
    else (k, canonicalize v) :: canonicalizePublicFields rest

end

/-- Lowercase hex digit. -/
def hexDigit (n : Nat) : Char :=
  if n = 0 then '0' else if n = 1 then '1' else if n = 2 then '2'
  else if n = 3 then '3' else if n = 4 then '4' else if n = 5 then '5'
  else if n = 6 then '6' else if n = 7 then '7' else if n = 8 then '8'
  else if n = 9 then '9' else if n = 10 then 'a' else if n = 11 then 'b'
  else if n = 12 then 'c' else if n = 13 then 'd' else if n = 14 then 'e'
  else 'f'

/-- Four-digit lowercase hex rendering used by `\uXXXX` escapes. -/
def hex4 (n : Nat) : String :=
  String.mk [hexDigit (n / 4096 % 16), hexDigit (n / 256 % 16),
    hexDigit (n / 16 % 16), hexDigit (n % 16)]

/-- Escaping of one character by `json.dumps` (default `ensure_ascii`):
quote, backslash and the named control escapes, `\uXXXX` for other
control and all non-ASCII characters (surrogate pairs above U+FFFF). -/
def escapeChar (c : Char) : String :=
  if c = '"' then "\\\""
  else if c = '\\' then "\\\\"
  else if c = '\n' then "\\n"
  else if c = '\t' then "\\t"
  else if c = '\r' then "\\r"
  else if c.toNat = 8 then "\\b"
  else if c.toNat = 12 then "\\f"
  else if c.toNat < 32 then "\\u" ++ hex4 c.toNat
  else if c.toNat < 127 then String.mk [c]
  else if c.toNat < 65536 then "\\u" ++ hex4 c.toNat
  else
    let n := c.toNat - 65536
    "\\u" ++ hex4 (55296 + n / 1024) ++ "\\u" ++ hex4 (56320 + n % 1024)

/-- JSON string literal as `json.dumps` renders it. -/
def quoteString (s : String) : String :=
  "\"" ++ String.join (s.toList.map escapeChar) ++ "\""

mutual

/-- Embedding of
`json.dumps(canonical, sort_keys=True, separators=(",", ":"))`:
canonical JSON, keys sorted at every object, no whitespace. -/
def jsonDumps : Huldra.Json → String
  | .null => "null"
  | .bool true => "true"
  | .bool false => "false"
  | .num n => toString n
  | .str s => quoteString s
  | .arr xs => "[" ++ String.intercalate "," (jsonDumpsList xs) ++ "]"
  | .obj kvs =>
    "\x7b" ++ String.intercalate "," (jsonDumpsFields (sortByKey kvs)) ++ "\x7d"
termination_by j => sizeOf j
decreasing_by
  all_goals simp_wf
  all_goals first
    | omega
    | (have h := sizeOf_sortByKey kvs
       omega)

/-- Recursion of `jsonDumps` into array elements. -/
def jsonDumpsList : List Huldra.Json → List String
  | [] => []
  | x :: xs => jsonDumps x :: jsonDumpsList xs
termination_by l => sizeOf l
decreasing_by
  all_goals simp_wf
  all_goals omega

/-- Recursion of `jsonDumps` into object entries. -/
def jsonDumpsFields : List (String × Huldra.Json) → List String
  | [] => []
  | (k, v) :: rest => (quoteString k ++ ":" ++ jsonDumps v) :: jsonDumpsFields rest
termination_by l => sizeOf l
decreasing_by
  all_goals simp_wf
  all_goals omega

end

/-- Word arithmetic modulus of BLAKE2s (32-bit words). -/
def MOD32 : Nat := 4294967296

/-- 32-bit addition. -/
def add32 (a b : Nat) : Nat := (a + b) % MOD32

/-- Bitwise xor (closed on 32-bit words). -/
def xor32 (a b : Nat) : Nat := Nat.xor a b

/-- Right rotation of a 32-bit word by `n < 32` bits. -/
def rotr32 (x n : Nat) : Nat :=
  x / 2 ^ n + x % 2 ^ n * 2 ^ (32 - n)

/-- BLAKE2s initialization vector (RFC 7693). -/
def IV32 : List Nat :=
  [1779033703, 3144134277, 1013904242, 2773480762,
   1359893119, 2600822924, 528734635, 1541459225]

/-- BLAKE2s message schedule (RFC 7693), ten rounds. -/
def SIGMA : List (List Nat) :=
  [[0, 1, 2, 3, 4, 5, 6, 7, 8, 9, 10, 11, 12, 13, 14, 15],
   [14, 10, 4, 8, 9, 15, 13, 6, 1, 12, 0, 2, 11, 7, 5, 3],
   [11, 8, 12, 0, 5, 2, 15, 13, 10, 14, 3, 6, 7, 1, 9, 4],
   [7, 9, 3, 1, 13, 12, 11, 14, 2, 6, 5, 10, 4, 0, 15, 8],
   [9, 0, 5, 7, 2, 4, 10, 15, 14, 1, 11, 12, 6, 8, 3, 13],
   [2, 12, 6, 10, 0, 11, 8, 3, 4, 13, 7, 5, 15, 14, 1, 9],
   [12, 5, 1, 15, 14, 13, 4, 10, 0, 7, 6, 3, 9, 2, 8, 11],
   [13, 11, 7, 14, 12, 1, 3, 9, 5, 0, 15, 4, 8, 6, 2, 10],
   [6, 15, 14, 9, 11, 3, 0, 8, 12, 2, 13, 7, 1, 4, 10, 5],
   [10, 2, 8, 4, 7, 6, 1, 5, 15, 11, 9, 14, 3, 12, 13, 0]]

/-- Word read with default 0. -/
def lget (l : List Nat) (i : Nat) : Nat := l.getD i 0

/-- BLAKE2 mixing function G on the work vector. -/
def gMix (v : List Nat) (a b c d x y : Nat) : List Nat :=
  let va := add32 (add32 (lget v a) (lget v b)) x
  let vd := rotr32 (xor32 (lget v d) va) 16
  let vc := add32 (lget v c) vd
  let vb := rotr32 (xor32 (lget v b) vc) 12
  let va2 := add32 (add32 va vb) y
  let vd2 := rotr32 (xor32 vd va2) 8
  let vc2 := add32 vc vd2
  let vb2 := rotr32 (xor32 vb vc2) 7
  (((v.set a va2).set b vb2).set c vc2).set d vd2

/-- One BLAKE2s round with message words `m` and schedule row `s`. -/
def blakeRound (m v s : List Nat) : List Nat :=
  let sg := fun i => lget m (lget s i)
  let v := gMix v 0 4 8 12 (sg 0) (sg 1)
  let v := gMix v 1 5 9 13 (sg 2) (sg 3)
  let v := gMix v 2 6 10 14 (sg 4) (sg 5)
  let v := gMix v 3 7 11 15 (sg 6) (sg 7)
  let v := gMix v 0 5 10 15 (sg 8) (sg 9)
  let v := gMix v 1 6 11 12 (sg 10) (sg 11)
  let v := gMix v 2 7 8 13 (sg 12) (sg 13)
  gMix v 3 4 9 14 (sg 14) (sg 15)

/-- BLAKE2s compression of one block (`t` byte counter, `last` flag). -/
def blakeCompress (h m : List Nat) (t : Nat) (last : Bool) : List Nat :=
  let v0 := h ++ IV32
  let v1 := (v0.set 12 (xor32 (lget v0 12) (t % MOD32))).set 13
    (xor32 (lget v0 13) (t / MOD32 % MOD32))
  let v2 := if last then v1.set 14 (xor32 (lget v1 14) 4294967295) else v1
  let vf := SIGMA.foldl (fun v s => blakeRound m v s) v2
  (List.range 8).map (fun i => xor32 (lget h i) (xor32 (lget vf i) (lget vf (i + 8))))

/-- Little-endian words of one padded 64-byte block. -/
def wordsOfBlock (b : List Nat) : List Nat :=
  (List.range 16).map (fun j =>
    lget b (4 * j) + lget b (4 * j + 1) * 256 + lget b (4 * j + 2) * 65536 +
      lget b (4 * j + 3) * 16777216)

/-- Block loop of BLAKE2s over the remaining message bytes. -/
def blake2sLoop (h : List Nat) (msg : List Nat) (processed : Nat) : List Nat :=
  if msg.length ≤ 64 then
    let block := msg ++ List.replicate (64 - msg.length) 0
    blakeCompress h (wordsOfBlock block) (processed + msg.length) true
  else
    let h2 := blakeCompress h (wordsOfBlock (msg.take 64)) (processed + 64) false
    blake2sLoop h2 (msg.drop 64) (processed + 64)
termination_by msg.length
decreasing_by
  simp only [List.length_drop]
  omega

/-- BLAKE2s initial state for an unkeyed hash of `digestSize` bytes
(parameter block `0x0101..nn` xored into the first word). -/
def blake2sInit (digestSize : Nat) : List Nat :=
  IV32.set 0 (xor32 (lget IV32 0) (16842752 + digestSize))

/-- First word-serialization bytes of a 32-bit word, little-endian. -/
def wordLEBytes (w : Nat) : List Nat :=
  [w % 256, w / 256 % 256, w / 65536 % 256, w / 16777216 % 256]

/-- Unkeyed BLAKE2s digest (as `hashlib.blake2s(data, digest_size=n)`). -/
def blake2s (msg : List Nat) (digestSize : Nat) : List Nat :=
  (((blake2sLoop (blake2sInit digestSize) msg 0).map wordLEBytes).flatten).take digestSize

/-- Two lowercase hex characters of one byte. -/
def byteToHex (b : Nat) : String :=
  String.mk [hexDigit (b / 16 % 16), hexDigit (b % 16)]

/-- Lowercase hex rendering of a digest (`.hexdigest()`). -/
def hexOfBytes (bytes : List Nat) : String :=
  String.join (bytes.map byteToHex)

/-- Bytes of the canonical JSON string.  `json.dumps` with the default
`ensure_ascii` emits pure ASCII, so UTF-8 encoding is the code points. -/
def strBytes (s : String) : List Nat :=
  s.toList.map Char.toNat

/-- Embedding of `HuldraSerializer.compute_hash`: canonicalize, encode as
canonical JSON (sorted keys, separators `,` and `:`), hash with BLAKE2s
at `digest_size=10`, render as (20) lowercase hex characters. -/
def compute_hash (c : HVal) : String :=
  hexOfBytes (blake2s (strBytes (jsonDumps (canonicalize c))) 10)

end HuldraSerializer


namespace Gren

/-- Result union of the gren state store.  `gren/storage/state.py` is not
in the sources; its `_StateResultMigrated` variant is modelled from the
spec ("result: tagged union over absent, incomplete, success{created_at},
failed, migrated{migrated_at}") and from the constructor call in
`gren/migrate.py` (`_StateResultMigrated(status="migrated",
migrated_at=...)`). -/
inductive GrenResult where
  | absent
  | incomplete
  | success (created_at : String)
  | failed
  | migrated (migrated_at : String)
deriving DecidableEq, Repr

/-- State record of a gren artifact directory, as far as `migrate`
touches it (result and attempt presence). -/
structure GrenState where
  result : GrenResult := .absent
  hasAttempt : Bool := false
deriving DecidableEq, Repr

/-- Migration record, from the `MigrationRecord` constructor calls in
`gren/migrate.py` (the `MigrationManager` model class itself is not in
the sources). -/
structure MigrationRecord where
  kind : String
  policy : String
  from_namespace : String
  from_hash : String
  to_namespace : String
  to_hash : String
  migrated_at : String
  origin : Option String
  note : Option String
deriving DecidableEq, Repr

/-- One gren artifact directory as `migrate` observes it: payload entry
names (everything except the internal subdirectory), the state record,
the success marker, and `migration.json`. -/
structure GrenDir where
  payload : List String := []
  state : GrenState := {}
  marker : Bool := false
  migration : Option MigrationRecord := none
deriving DecidableEq, Repr

/-- Embedding of `gren.migrate._transfer_payload`: move or copy every
payload entry (the internal subdirectory is skipped). -/
def transferPayload (fromDir toDir : GrenDir) (policy : String) :
    GrenDir × GrenDir :=
  let toDir2 := { toDir with payload := toDir.payload ++ fromDir.payload }
  if policy = "move" then
    ({ fromDir with payload := [] }, toDir2)
  else
    (fromDir, toDir2)

/-- Embedding of `gren.migrate._copy_state`: copy `state.json` and the
success marker from the source internal directory into the target. -/
def copyState (fromDir toDir : GrenDir) : GrenDir :=
  { toDir with state := fromDir.state, marker := fromDir.marker }

/-- Embedding of `gren.migrate._write_migrated_state`: set the result to
`migrated{migrated_at}` and clear the attempt (via `update_state`; the
gren `StateManager.update_state` is modelled from the spec as applying
the mutator to the stored state). -/
def writeMigratedState (d : GrenDir) (migrated_at : String) : GrenDir :=
  { d with state := { result := .migrated migrated_at, hasAttempt := false } }

/-- Embedding of `gren.migrate.migrate` on the two directories.
`now` is the `migrated_at` timestamp; metadata and the event journal are
outside this model; `MigrationManager.write_migration` (not in the
sources) is modelled from the spec as writing the record to
`migration.json` of the given directory.  Note the record written to the
target carries `kind="alias"` for every policy (the literal in the
`MigrationRecord(...)` call), and nothing rewrites the source state for
the `move` policy. -/
def migrate (fromDir toDir : GrenDir)
    (policy from_namespace from_hash to_namespace to_hash : String)
    (origin note : Option String) (now : String) :
    Except String (GrenDir × GrenDir × MigrationRecord) := do
  if policy ≠ "alias" ∧ policy ≠ "move" ∧ policy ≠ "copy" then
    throw ("Unsupported migration policy: " ++ policy)
  let record : MigrationRecord :=
    { kind := "alias", policy, from_namespace, from_hash,
      to_namespace, to_hash, migrated_at := now, origin, note }
  let (fromDir, toDir) :=
    if policy = "move" ∨ policy = "copy" then
      let moved := transferPayload fromDir toDir policy
      (moved.1, copyState moved.1 moved.2)
    else
      (fromDir, writeMigratedState toDir now)
  let toDir := { toDir with migration := some record }
  let fromDir :=
    if policy ≠ "copy" then
      let old_record : MigrationRecord :=
        { kind := "migrated", policy, from_namespace, from_hash,
          to_namespace, to_hash, migrated_at := now, origin, note }
      { fromDir with migration := some old_record }
    else fromDir
  pure (fromDir, toDir, record)

end Gren

namespace Huldra

theorem formatTimestamp_ne_empty (t : Inst) : formatTimestamp t ≠ "" := by
  unfold formatTimestamp
  intro h
  have hl := congrArg String.length h
  simp [String.length_append] at hl
  exact absurd hl.2 (by decide)

theorem coerceResult_incomplete (r : StateResult) :
    coerceResult r "incomplete" none = .ok .incomplete := rfl

theorem coerceResult_failed_eq (r : StateResult) :
    coerceResult r "failed" none = .ok .failed := rfl

theorem coerceResult_success_eq (r : StateResult) (c : String) (hc : c ≠ "") :
    coerceResult r "success" (some c) = .ok (.success c) := by
  unfold coerceResult
  simp [Option.orElse, hc]

end Huldra

namespace Huldra

/-- Sample owner record used in concrete instantiations. -/
def sampleOwner : StateOwner :=
  { pid := some 4242, host := some "workhost", hostname := some "workhost",
    user := some "u" }

/-- Sample attempt record used in concrete instantiations. -/
def sampleAttempt (backend : String) (phase : AttemptPhase) : StateAttempt :=
  { id := "a1", number := 1, backend := backend
    started_at := "2024-05-01T12:00:00+00:00"
    heartbeat_at := "2024-05-01T12:00:00+00:00"
    lease_duration_sec := 60
    lease_expires_at := "2024-05-01T12:01:00+00:00"
    owner := sampleOwner, scheduler := [], phase := phase }

/-- Sample error payload used in concrete instantiations. -/
def sampleError : HuldraErrorState :=
  { type := "ValueError", message := "boom", traceback := none }

/-- C7: `read_state(D)` returns the default state (result `absent`, no
attempt) when `state.json` is missing, and fails with a fatal
corrupt-state error naming the state-file path — never silently
resetting — when the file contains invalid JSON, an unsupported
`schema_version`, or data that fails schema validation. -/
theorem c7_read_state_missing_default_corrupt_fatal (directory : String) :
    (read_state directory .missing = .ok defaultState ∧
      defaultState.result = .absent ∧ defaultState.attempt = none) ∧
    (∀ raw, read_state directory (.unparseable raw) =
      .error ("Invalid JSON in state file: " ++ statePath directory)) ∧
    (∀ kvs, isVersion1 (jsonLookup kvs "schema_version") = false →
      read_state directory (.parsed (.obj kvs)) =
        .error ("Unsupported state schema_version (expected 1): " ++
          statePath directory)) ∧
    (∀ kvs, isVersion1 (jsonLookup kvs "schema_version") = true →
      validateState (.obj kvs) = none →
      read_state directory (.parsed (.obj kvs)) =
        .error ("Invalid state schema: " ++ statePath directory)) := by
  refine ⟨⟨rfl, rfl, rfl⟩, fun raw => rfl, fun kvs hv => ?_, fun kvs hv hval => ?_⟩
  · simp [read_state, hv]
  · simp [read_state, hv, hval]

/-- Witness for C7 at concrete inputs: a wrong `schema_version` and an
unknown top-level key both fail fatally with the path in the message. -/
theorem c7_witness :
    read_state "/data/ns/h" (.parsed (.obj [("schema_version", .num 2)])) =
      .error "Unsupported state schema_version (expected 1): /data/ns/h/state.json" ∧
    read_state "/data/ns/h"
        (.parsed (.obj [("schema_version", .num 1), ("bogus", .null)])) =
      .error "Invalid state schema: /data/ns/h/state.json" := by
  have h := c7_read_state_missing_default_corrupt_fatal "/data/ns/h"
  exact ⟨h.2.2.1 _ (by decide), h.2.2.2 _ (by decide) (by rfl)⟩

end Huldra

namespace Huldra

/-- C2: whenever `SUCCESS.json` exists and the current attempt is queued
or running, `reconcile(D)` promotes: the attempt becomes
`success{ended_at=now}` and the result becomes `success{created_at=now}`
(and `.compute.lock` is untouched, `success` not being in the unlink
set). -/
theorem reconcileMutate_marker (env : ReconcileEnv) (s : HuldraState)
    (a : StateAttempt)
    (ha : s.attempt = some a) (hact : a.phase.isActive = true)
    (hm : env.marker_exists = true) :
    reconcileMutate env s =
      .ok { s with
              attempt := some { a with phase := .success (formatTimestamp env.now) },
              result := .success (formatTimestamp env.now) } := by
  unfold reconcileMutate
  rw [ha]
  simp only [hact, hm, if_true]
  rw [coerceResult_success_eq s.result _ (formatTimestamp_ne_empty env.now)]
  rfl

theorem c2_reconcile_promotes_marker (env : ReconcileEnv) (s : HuldraState)
    (lock : Bool) (a : StateAttempt)
    (ha : s.attempt = some a) (hact : a.phase.isActive = true)
    (hm : env.marker_exists = true) :
    reconcile env s lock =
      .ok ({ schema_version := 1,
             result := .success (formatTimestamp env.now),
             attempt := some { a with phase := .success (formatTimestamp env.now) },
             updated_at := some (formatTimestamp env.now) }, lock) := by
  unfold reconcile runUpdate
  rw [reconcileMutate_marker env s a ha hact hm]
  rfl

/-- Witness for C2: a concrete queued submitit attempt with the marker on
disk is promoted to success. -/
theorem c2_witness :
    reconcile
        { marker_exists := true, this_host := "workhost",
          pid_alive := fun _ => false, probe := none, now := 1714570000 }
        { result := .incomplete, attempt := some (sampleAttempt "submitit" .queued) }
        true =
      .ok ({ schema_version := 1,
             result := .success (formatTimestamp 1714570000),
             attempt := some { sampleAttempt "submitit" .queued with
               phase := .success (formatTimestamp 1714570000) },
             updated_at := some (formatTimestamp 1714570000) }, true) :=
  c2_reconcile_promotes_marker _ _ _ _ rfl (by decide) rfl

end Huldra

namespace Huldra

theorem leaseExpired_of_unparseable (env : ReconcileEnv) (a : StateAttempt)
    (h : parseIsoTimestamp a.lease_expires_at = none) :
    leaseExpired env a = true := by
  unfold leaseExpired
  rw [h]

/-- C10: when the current attempt is queued/running, no success marker is
seen, and `lease_expires_at` does not parse as a timestamp (empty or
garbage), `reconcile` treats the lease as already expired and
terminalizes the attempt as `crashed` with reason `lease_expired` at any
`now` whatsoever — immediately, with no grace period (`reconcile` has no
stale-timeout input at all); the hypotheses only exclude the
higher-priority verdicts (a provably dead local pid, a terminal probe
verdict). -/
theorem c10_unparseable_lease_crashed_immediately (env : ReconcileEnv)
    (s : HuldraState) (lock : Bool) (a : StateAttempt)
    (ha : s.attempt = some a) (hact : a.phase.isActive = true)
    (hm : env.marker_exists = false)
    (hlease : parseIsoTimestamp a.lease_expires_at = none)
    (hlocal : a.backend = "local" → localAttemptAlive env a ≠ some false)
    (hprobe : ∀ p, env.probe = some p → ∃ v, p s = .ok v ∧ v.terminal_status = none) :
    reconcile env s lock =
      .ok ({ schema_version := 1,
             result := .incomplete,
             attempt := some { a with
               phase := AttemptPhase.terminal .crashed (formatTimestamp env.now)
                 none (some "lease_expired") },
             updated_at := some (formatTimestamp env.now) }, false) := by
  have hexp := leaseExpired_of_unparseable env a hlease
  have hchoice : chooseTerminal env s a =
      .ok (some ("crashed", "lease_expired"), a) := by
    unfold chooseTerminal
    by_cases hb : a.backend = "local"
    · cases hla : localAttemptAlive env a with
      | none => simp [hb, hla, hexp]
      | some b =>
        cases b with
        | false => exact absurd hla (hlocal hb)
        | true => simp [hb, hla, hexp]
    · by_cases hs : a.backend = "submitit"
      · cases hp : env.probe with
        | none => simp [hb, hs, hp, hexp]
        | some p =>
          obtain ⟨v, hv, hts⟩ := hprobe p hp
          simp [hb, hs, hp, hv, hts, hexp, bind, Except.bind]
      · simp [hb, hs, hexp]
  have hmut : reconcileMutate env s =
      .ok { s with
              attempt := some { a with
                phase := AttemptPhase.terminal .crashed (formatTimestamp env.now)
                  none (some "lease_expired") },
              result := .incomplete } := by
    unfold reconcileMutate
    rw [ha]
    simp only [hact, hm, if_true, Bool.false_eq_true, if_false]
    rw [hchoice]
    rfl
  unfold reconcile runUpdate
  rw [hmut]
  rfl

/-- Witness for C10: a running local attempt owned by a live pid on this
host whose `lease_expires_at` is the empty string is crashed with reason
`lease_expired` at a `now` equal to its own start instant. -/
theorem c10_witness :
    reconcile
        { marker_exists := false, this_host := "workhost",
          pid_alive := fun _ => true, probe := none, now := 1714561200 }
        { result := .incomplete,
          attempt := some { sampleAttempt "local" .running with lease_expires_at := "" } }
        true =
      .ok ({ schema_version := 1,
             result := .incomplete,
             attempt := some { sampleAttempt "local" .running with
               lease_expires_at := ""
               phase := AttemptPhase.terminal .crashed (formatTimestamp 1714561200)
                 none (some "lease_expired") },
             updated_at := some (formatTimestamp 1714561200) }, false) := by
  exact c10_unparseable_lease_crashed_immediately
    { marker_exists := false, this_host := "workhost",
      pid_alive := fun _ => true, probe := none, now := 1714561200 }
    { result := .incomplete,
      attempt := some { sampleAttempt "local" .running with lease_expires_at := "" } }
    true
    { sampleAttempt "local" .running with lease_expires_at := "" }
    rfl (by decide) rfl (by decide)
    (fun _ => by decide)
    (fun p hp => nomatch hp)

end Huldra

namespace Huldra

/-- Counterexample to C6 as stated: a probe callback that raises is NOT
caught by `reconcile` — the call returns the probe's error instead of
completing a state update under the lease-expiry fallback (the attempt
here has an expired lease, so the claimed fallback would have produced a
crashed attempt, not an error). -/
theorem c6_counterexample :
    reconcile
        { marker_exists := false, this_host := "workhost",
          pid_alive := fun _ => true,
          probe := some (fun _ => .error "probe bug"), now := 1714561200 }
        { result := .incomplete, attempt := some (sampleAttempt "submitit" .queued) }
        true = .error "probe bug" := by rfl

/-- C6 (amended): an error raised by the `submitit_probe` callback while
`reconcile` classifies an active remote attempt is NOT caught: it
propagates out of `reconcile` and the state update is aborted —
`update_state` writes nothing when the mutator raises, so the stored
state is left exactly as it was (no corruption, but also no lease-rule
fallback). -/
theorem c6_probe_error_propagates (env : ReconcileEnv) (s : HuldraState)
    (lock : Bool) (a : StateAttempt)
    (p : HuldraState → Except String ProbeVerdict) (e : String)
    (ha : s.attempt = some a) (hact : a.phase.isActive = true)
    (hm : env.marker_exists = false) (hb : a.backend = "submitit")
    (hp : env.probe = some p) (he : p s = .error e) :
    reconcile env s lock = .error e ∧
    (∀ sys : SysState, sys.state = s → sys.marker = false →
      step sys (.reconcileOp env.this_host env.pid_alive (some p) env.now) = sys) := by
  have hchoice : chooseTerminal env s a = .error e := by
    unfold chooseTerminal
    simp [hb, hp, he, bind, Except.bind]
  have hmut : reconcileMutate env s = .error e := by
    unfold reconcileMutate
    rw [ha]
    simp only [hact, hm, if_true, Bool.false_eq_true, if_false]
    rw [hchoice]
    rfl
  have hrec : ∀ l : Bool, reconcile env s l = .error e := by
    intro l
    unfold reconcile runUpdate
    rw [hmut]
    rfl
  refine ⟨hrec lock, fun sys hsys hmk => ?_⟩
  obtain ⟨me, th, pa, pr, nw⟩ := env
  simp only at hm hp
  subst hm hp
  simp only [step, hsys, hmk, hrec]

end Huldra

namespace Huldra

/-- Witness for the amended C6: at a concrete directory state a raising
probe aborts `reconcile` (error propagates) and the directory is left
exactly as it was. -/
theorem c6_witness :
    reconcile
        { marker_exists := false, this_host := "workhost",
          pid_alive := fun _ => false,
          probe := some (fun _ => .error "scheduler exploded"), now := 1714561300 }
        { result := .incomplete, attempt := some (sampleAttempt "submitit" .running) }
        false = .error "scheduler exploded" ∧
    step { state := { result := .incomplete,
                      attempt := some (sampleAttempt "submitit" .running) },
           marker := false, compute_lock := true }
        (.reconcileOp "workhost" (fun _ => false)
          (some (fun _ => .error "scheduler exploded")) 1714561300) =
      { state := { result := .incomplete,
                   attempt := some (sampleAttempt "submitit" .running) },
        marker := false, compute_lock := true } := by
  have h := c6_probe_error_propagates
    { marker_exists := false, this_host := "workhost",
      pid_alive := fun _ => false,
      probe := some (fun _ => .error "scheduler exploded"), now := 1714561300 }
    { result := .incomplete, attempt := some (sampleAttempt "submitit" .running) }
    false
    (sampleAttempt "submitit" .running)
    (fun _ => .error "scheduler exploded") "scheduler exploded"
    rfl (by decide) rfl rfl rfl rfl
  exact ⟨h.1, h.2 _ rfl rfl⟩

end Huldra

namespace Huldra

/-- Counterexample to C3 as stated: `finish_attempt_success` called with
an `attempt_id` that does not match the current (queued, id `a1`)
attempt leaves the attempt record alone but still overwrites the stored
result — it flips `incomplete` to `success`, so the call is not a no-op
on the state. -/
theorem c3_counterexample :
    (finishAttemptSuccess "other-attempt" 1714570000
        { result := .incomplete,
          attempt := some (sampleAttempt "local" .queued) }).toOption.map
      (fun s => (s.result, s.attempt)) =
      some (.success (formatTimestamp 1714570000),
            some (sampleAttempt "local" .queued)) := by decide

theorem runUpdate_ok (now : Inst) (f : HuldraState → Except String HuldraState)
    (s x : HuldraState) (h : f s = .ok x) :
    runUpdate now f s = .ok (stamp now x) := by
  unfold runUpdate
  rw [h]
  rfl

theorem mismatch_guard (aid : String) (s : HuldraState)
    (hmis : ∀ a, s.attempt = some a → a.id ≠ aid)
    (f : StateAttempt → StateAttempt) :
    (match s.attempt with
      | some a => if a.id = aid then { s with attempt := some (f a) } else s
      | none => s) = s := by
  cases hs : s.attempt with
  | none => rfl
  | some a => simp [hmis a hs]

theorem bindOkCongr {a b : Type} (x : Except String a) (v : a)
    (k : a → Except String b) (h : x = .ok v) : x.bind k = k v := by
  rw [h]
  rfl

theorem finishSuccessMutate_mismatch (aid : String) (now : Inst)
    (s : HuldraState) (hmis : ∀ a, s.attempt = some a → a.id ≠ aid) :
    finishSuccessMutate aid now s =
      .ok { s with result := .success (formatTimestamp now) } := by
  have hg := mismatch_guard aid s hmis
    (fun a => { a with phase := .success (formatTimestamp now) })
  calc finishSuccessMutate aid now s
      = (coerceResult s.result "success" (some (formatTimestamp now))).bind
          (fun r => .ok { s with result := r }) := by
        unfold finishSuccessMutate
        rw [hg]
        rfl
    _ = .ok { s with result := .success (formatTimestamp now) } :=
        bindOkCongr _ _ _
          (coerceResult_success_eq s.result _ (formatTimestamp_ne_empty now))

theorem finishFailedMutate_mismatch (aid : String) (err : HuldraErrorState)
    (now : Inst) (s : HuldraState)
    (hmis : ∀ a, s.attempt = some a → a.id ≠ aid) :
    finishFailedMutate aid err now s = .ok { s with result := .failed } := by
  have hg := mismatch_guard aid s hmis
    (fun a => { a with phase := .failed (formatTimestamp now) err none })
  calc finishFailedMutate aid err now s
      = (coerceResult s.result "failed" none).bind
          (fun r => .ok { s with result := r }) := by
        unfold finishFailedMutate
        rw [hg]
        rfl
    _ = .ok { s with result := .failed } :=
        bindOkCongr _ _ _ (coerceResult_failed_eq s.result)

theorem finishPreemptedMutate_mismatch (aid : String) (err : HuldraErrorState)
    (reason : Option String) (now : Inst) (s : HuldraState)
    (hmis : ∀ a, s.attempt = some a → a.id ≠ aid) :
    finishPreemptedMutate aid err reason now s =
      .ok { s with result := .incomplete } := by
  have hg := mismatch_guard aid s hmis
    (fun a => { a with
      phase := .terminal .preempted (formatTimestamp now) (some err) reason })
  calc finishPreemptedMutate aid err reason now s
      = (coerceResult s.result "incomplete" none).bind
          (fun r => .ok { s with result := r }) := by
        unfold finishPreemptedMutate
        rw [hg]
        rfl
    _ = .ok { s with result := .incomplete } :=
        bindOkCongr _ _ _ (coerceResult_incomplete s.result)

theorem heartbeatMutate_mismatch (aid : String) (lease : Nat) (now : Inst)
    (s : HuldraState) (hmis : ∀ a, s.attempt = some a → a.id ≠ aid) :
    heartbeatMutate aid lease now s = s := by
  unfold heartbeatMutate
  cases hs : s.attempt with
  | none => rfl
  | some a => simp [hmis a hs]

/-- C3 (amended): with a mismatched (or absent) `attempt_id` the attempt
record itself is never rewritten, and `heartbeat` leaves attempt and
result both unchanged; but the three `finish_*` transitions still run
their result coercion outside the id guard, unconditionally setting the
result to `success{created_at=now}` / `failed` / `incomplete`
respectively (and every call restamps `updated_at`). -/
theorem c3_mismatched_attempt_id (aid : String) (err : HuldraErrorState)
    (reason : Option String) (lease : Nat) (now : Inst) (s : HuldraState)
    (hmis : ∀ a, s.attempt = some a → a.id ≠ aid) :
    finishAttemptSuccess aid now s =
      .ok (stamp now { s with result := .success (formatTimestamp now) }) ∧
    finishAttemptFailed aid err now s =
      .ok (stamp now { s with result := .failed }) ∧
    finishAttemptPreempted aid err reason now s =
      .ok (stamp now { s with result := .incomplete }) ∧
    heartbeat aid lease now s = .ok (stamp now s) :=
  ⟨runUpdate_ok now _ s _ (finishSuccessMutate_mismatch aid now s hmis),
   runUpdate_ok now _ s _ (finishFailedMutate_mismatch aid err now s hmis),
   runUpdate_ok now _ s _ (finishPreemptedMutate_mismatch aid err reason now s hmis),
   runUpdate_ok now _ s _ (by rw [heartbeatMutate_mismatch aid lease now s hmis])⟩

/-- Witness for the amended C3 at a concrete state with a queued attempt
`a1` and the mismatched id `zzz`. -/
theorem c3_witness :
    finishAttemptSuccess "zzz" 1714570000
        { result := .incomplete, attempt := some (sampleAttempt "local" .queued) } =
      .ok (stamp 1714570000
        { result := .success (formatTimestamp 1714570000),
          attempt := some (sampleAttempt "local" .queued) }) ∧
    heartbeat "zzz" 60 1714570000
        { result := .incomplete, attempt := some (sampleAttempt "local" .queued) } =
      .ok (stamp 1714570000
        { result := .incomplete, attempt := some (sampleAttempt "local" .queued) }) := by
  have h := c3_mismatched_attempt_id "zzz" sampleError none 60 1714570000
    { result := .incomplete, attempt := some (sampleAttempt "local" .queued) }
    (fun a ha => by simp at ha; simp [← ha, sampleAttempt])
  exact ⟨h.1, h.2.2.2⟩

end Huldra

namespace Huldra

theorem startAttempt_result (running : Bool) (aid backend : String)
    (lease : Nat) (owner : StateOwner) (sched : List (String × String))
    (now : Inst) (s : HuldraState) :
    (startAttempt running aid backend lease owner sched now s).map
      (fun x => x.result) = .ok .incomplete := by
  unfold startAttempt runUpdate startAttemptMutate
  cases s.attempt <;> rfl

theorem heartbeat_result (aid : String) (lease : Nat) (now : Inst)
    (s : HuldraState) :
    (heartbeat aid lease now s).map (fun x => x.result) = .ok s.result := by
  unfold heartbeat runUpdate heartbeatMutate
  cases hs : s.attempt with
  | none => simp [hs, Except.map, stamp]
  | some a =>
    by_cases h : a.phase = .running ∧ a.id = aid <;>
      simp [hs, h, Except.map, stamp]

theorem finishAttemptSuccess_result (aid : String) (now : Inst)
    (s : HuldraState) :
    (finishAttemptSuccess aid now s).map (fun x => x.result) =
      .ok (.success (formatTimestamp now)) := by
  unfold finishAttemptSuccess runUpdate finishSuccessMutate
  cases hs : s.attempt with
  | none =>
    simp only [hs]
    rw [coerceResult_success_eq s.result _ (formatTimestamp_ne_empty now)]
    rfl
  | some a =>
    by_cases h : a.id = aid
    · simp only [hs, h, if_true]
      rw [coerceResult_success_eq s.result _ (formatTimestamp_ne_empty now)]
      rfl
    · simp only [hs, h, if_false]
      rw [coerceResult_success_eq s.result _ (formatTimestamp_ne_empty now)]
      rfl

theorem finishAttemptFailed_result (aid : String) (err : HuldraErrorState)
    (now : Inst) (s : HuldraState) :
    (finishAttemptFailed aid err now s).map (fun x => x.result) =
      .ok .failed := by
  unfold finishAttemptFailed runUpdate finishFailedMutate
  cases hs : s.attempt with
  | none =>
    simp [hs, Except.map, bind, Except.bind, pure, Except.pure, stamp,
      coerceResult_failed_eq]
  | some a =>
    by_cases h : a.id = aid <;>
      simp [hs, h, Except.map, bind, Except.bind, pure, Except.pure, stamp,
        coerceResult_failed_eq]

theorem finishAttemptPreempted_result (aid : String) (err : HuldraErrorState)
    (reason : Option String) (now : Inst) (s : HuldraState) :
    (finishAttemptPreempted aid err reason now s).map (fun x => x.result) =
      .ok .incomplete := by
  unfold finishAttemptPreempted runUpdate finishPreemptedMutate
  cases hs : s.attempt with
  | none =>
    simp [hs, Except.map, bind, Except.bind, pure, Except.pure, stamp,
      coerceResult_incomplete]
  | some a =>
    by_cases h : a.id = aid <;>
      simp [hs, h, Except.map, bind, Except.bind, pure, Except.pure, stamp,
        coerceResult_incomplete]

/-- Counterexample to C4 as stated: on a state whose result is sticky
`success`, starting a new attempt coerces the result back to
`incomplete` (and so does finishing the current attempt as preempted,
with a matching id); neither is an invalidation or a migration
detachment. -/
theorem c4_counterexample :
    ((startAttempt true "a2" "local" 60 sampleOwner [] 1714570000
        { result := .success "2024-05-01T10:00:00+00:00",
          attempt := some (sampleAttempt "local"
            (.success "2024-05-01T10:00:00+00:00")) }).map
      (fun x => x.result) = .ok .incomplete) ∧
    ((finishAttemptPreempted "a1" sampleError (some "signal") 1714570000
        { result := .success "2024-05-01T10:00:00+00:00",
          attempt := some (sampleAttempt "local" .running) }).map
      (fun x => x.result) = .ok .incomplete) := by
  constructor
  · exact startAttempt_result true "a2" "local" 60 sampleOwner [] 1714570000 _
  · rfl

/-- C4 (amended): result statuses are not sticky at the state-store
level: `_start_attempt` and `finish_attempt_preempted` unconditionally
coerce the result to `incomplete` — from `success` and `failed` included
— for every input state.  Stickiness of `success`/`failed` is enforced
by the callers (which refuse to start work on such directories), not by
these operations; the journaled invalidation path
(`_invalidate_cached_success`) is the `Op.invalidate` transition. -/
theorem c4_result_not_sticky (running : Bool) (aid backend : String)
    (lease : Nat) (owner : StateOwner) (sched : List (String × String))
    (err : HuldraErrorState) (reason : Option String) (now : Inst)
    (s : HuldraState) :
    ((startAttempt running aid backend lease owner sched now s).map
      (fun x => x.result) = .ok .incomplete) ∧
    ((finishAttemptPreempted aid err reason now s).map
      (fun x => x.result) = .ok .incomplete) :=
  ⟨startAttempt_result running aid backend lease owner sched now s,
   finishAttemptPreempted_result aid err reason now s⟩

end Huldra

namespace Huldra

theorem mapResultOk (E : Except String HuldraState)
    (f : HuldraState → StateResult) (x : StateResult)
    (h : E.map f = .ok x) : ∃ s', E = .ok s' ∧ f s' = x := by
  cases E with
  | error e => simp [Except.map] at h
  | ok s' =>
    refine ⟨s', rfl, ?_⟩
    simpa [Except.map] using h

theorem terminalize_result (s : HuldraState) (a : StateAttempt)
    (ts reason : String) (now : Inst) :
    (terminalize s a ts reason now).map (fun x => x.result) =
      .ok (if (if ts = "success" then "crashed" else ts) = "failed"
        then .failed else .incomplete) := by
  unfold terminalize
  by_cases h1 : ts = "success"
  · simp only [h1, if_true]
    rfl
  · simp only [h1, if_false]
    by_cases h2 : ts = "failed"
    · simp only [h2, if_true]
      rfl
    · simp only [h2, if_false]
      rw [coerceResult_incomplete]
      rfl

theorem reconcileMutate_none (env : ReconcileEnv) (s : HuldraState)
    (ha : s.attempt = none) : reconcileMutate env s = .ok s := by
  unfold reconcileMutate
  rw [ha]

theorem reconcileMutate_inactive (env : ReconcileEnv) (s : HuldraState)
    (a : StateAttempt) (ha : s.attempt = some a)
    (hact : a.phase.isActive = false) : reconcileMutate env s = .ok s := by
  unfold reconcileMutate
  rw [ha]
  simp [hact]

theorem reconcileMutate_active_nomarker (env : ReconcileEnv) (s : HuldraState)
    (a : StateAttempt) (ha : s.attempt = some a)
    (hact : a.phase.isActive = true) (hm : env.marker_exists = false) :
    reconcileMutate env s = (chooseTerminal env s a).bind
      (fun choice => match choice with
        | (none, _) => .ok s
        | (some (ts, reason), a') => terminalize s a' ts reason env.now) := by
  unfold reconcileMutate
  rw [ha]
  simp only [hact, hm, Bool.false_eq_true, if_false, if_true]
  rfl

theorem reconcileMutate_result (env : ReconcileEnv) (s s1 : HuldraState)
    (h : reconcileMutate env s = .ok s1) :
    s1.result = s.result ∨ s1.result = .incomplete ∨ s1.result = .failed ∨
      (env.marker_exists = true ∧
        s1.result = .success (formatTimestamp env.now)) := by
  cases ha : s.attempt with
  | none =>
    rw [reconcileMutate_none env s ha] at h
    injection h with h
    subst h
    exact .inl rfl
  | some a =>
    by_cases hact : a.phase.isActive = true
    · by_cases hm : env.marker_exists = true
      · rw [reconcileMutate_marker env s a ha hact hm] at h
        injection h with h
        subst h
        exact .inr (.inr (.inr ⟨hm, rfl⟩))
      · rw [reconcileMutate_active_nomarker env s a ha hact
          (Bool.not_eq_true env.marker_exists ▸ hm)] at h
        cases hch : chooseTerminal env s a with
        | error e =>
          rw [hch] at h
          simp [Except.bind] at h
        | ok choice =>
          rw [hch] at h
          simp only [Except.bind] at h
          obtain ⟨tso, a'⟩ := choice
          cases tso with
          | none =>
            injection h with h
            subst h
            exact .inl rfl
          | some p =>
            obtain ⟨ts, rsn⟩ := p
            have h' : terminalize s a' ts rsn env.now = .ok s1 := h
            have hres := terminalize_result s a' ts rsn env.now
            rw [h'] at hres
            simp only [Except.map] at hres
            injection hres with hres
            by_cases hf : (if ts = "success" then "crashed" else ts) = "failed"
            · rw [if_pos hf] at hres
              exact .inr (.inr (.inl hres))
            · rw [if_neg hf] at hres
              exact .inr (.inl hres)
    · rw [reconcileMutate_inactive env s a ha
        (Bool.not_eq_true a.phase.isActive ▸ hact)] at h
      injection h with h
      subst h
      exact .inl rfl

theorem reconcile_ok_parts (env : ReconcileEnv) (s : HuldraState) (lock : Bool)
    (s2 : HuldraState) (l' : Bool)
    (h : reconcile env s lock = .ok (s2, l')) :
    ∃ s1, reconcileMutate env s = .ok s1 ∧ s2 = stamp env.now s1 := by
  unfold reconcile runUpdate at h
  cases hm : reconcileMutate env s with
  | error e =>
    rw [hm] at h
    simp [Except.map] at h
  | ok s1 =>
    rw [hm] at h
    simp only [Except.map] at h
    injection h with h
    exact ⟨s1, rfl, congrArg Prod.fst h.symm⟩

end Huldra

namespace Huldra

theorem applyExcept_marker (sys : SysState) (r : Except String HuldraState) :
    (applyExcept sys r).marker = sys.marker := by
  cases r <;> rfl

/-- Success-marker durability invariant of one artifact directory: a
stored `success` result implies `SUCCESS.json` is on disk. -/
def MarkerInv (sys : SysState) : Prop :=
  ∀ c, sys.state.result = .success c → sys.marker = true

theorem step_preserves_MarkerInv (sys : SysState) (op : Op)
    (h : MarkerInv sys) : MarkerInv (step sys op) := by
  cases op with
  | startQueued aid b l o sc n =>
    intro c hc
    obtain ⟨s', hs', hr⟩ := mapResultOk _ _ _
      (startAttempt_result false aid b l o sc n sys.state)
    simp only [step, applyExcept, hs'] at hc ⊢
    rw [hr] at hc
    exact StateResult.noConfusion hc
  | startRunning aid b l o sc n =>
    intro c hc
    obtain ⟨s', hs', hr⟩ := mapResultOk _ _ _
      (startAttempt_result true aid b l o sc n sys.state)
    simp only [step, applyExcept, hs'] at hc ⊢
    rw [hr] at hc
    exact StateResult.noConfusion hc
  | heartbeatOp aid l n =>
    intro c hc
    obtain ⟨s', hs', hr⟩ := mapResultOk _ _ _
      (heartbeat_result aid l n sys.state)
    simp only [step, applyExcept, hs'] at hc ⊢
    rw [hr] at hc
    exact h c hc
  | writeMarker =>
    intro c _
    rfl
  | runSuccess aid n =>
    intro c _
    simp only [step, applyExcept_marker]
  | finishFailedOp aid err n =>
    intro c hc
    obtain ⟨s', hs', hr⟩ := mapResultOk _ _ _
      (finishAttemptFailed_result aid err n sys.state)
    simp only [step, applyExcept, hs'] at hc ⊢
    rw [hr] at hc
    exact StateResult.noConfusion hc
  | finishPreemptedOp aid err reason n =>
    intro c hc
    obtain ⟨s', hs', hr⟩ := mapResultOk _ _ _
      (finishAttemptPreempted_result aid err reason n sys.state)
    simp only [step, applyExcept, hs'] at hc ⊢
    rw [hr] at hc
    exact StateResult.noConfusion hc
  | reconcileOp host alive probe n =>
    intro c hc
    cases hrec : reconcile
        { marker_exists := sys.marker, this_host := host, pid_alive := alive
          probe := probe, now := n } sys.state sys.compute_lock with
    | error e =>
      simp only [step, hrec] at hc ⊢
      exact h c hc
    | ok p =>
      obtain ⟨s2, l2⟩ := p
      simp only [step, hrec] at hc ⊢
      obtain ⟨s1, hm1, hm2⟩ := reconcile_ok_parts _ _ _ _ _ hrec
      have hs2r : s2.result = s1.result := by rw [hm2]; rfl
      rcases reconcileMutate_result _ _ _ hm1 with heq | hinc | hfail | ⟨hmk, hsucc⟩
      · exact h c (by rw [← heq, ← hs2r]; exact hc)
      · rw [hs2r, hinc] at hc
        exact StateResult.noConfusion hc
      · rw [hs2r, hfail] at hc
        exact StateResult.noConfusion hc
      · exact hmk
  | invalidate n =>
    intro c hc
    simp only [step, applyExcept, runUpdate, Except.map] at hc
    exact StateResult.noConfusion hc
  | acquireComputeLock =>
    intro c hc
    exact h c hc
  | releaseComputeLock =>
    intro c hc
    exact h c hc

theorem foldl_MarkerInv (ops : List Op) :
    ∀ sys, MarkerInv sys → MarkerInv (ops.foldl step sys) := by
  induction ops with
  | nil => exact fun sys h => h
  | cons op rest ih => exact fun sys h => ih _ (step_preserves_MarkerInv sys op h)

/-- C1: along every sequence of state-store operations on a directory —
as the repository composes them: `finish_attempt_success` is only ever
invoked immediately after `write_success_marker` (`core/huldra.py`), and
the reconciler promotes to success only when it sees the marker — a state
whose result is `success` implies `SUCCESS.json` exists in the
directory. -/
theorem c1_success_marker_durability (ops : List Op) (c : String)
    (h : (runOps ops).state.result = .success c) :
    (runOps ops).marker = true :=
  foldl_MarkerInv ops initSys
    (fun _ hc => StateResult.noConfusion hc) c h

/-- Witness for C1: a concrete cold-create trace (start running, create,
marker + finish) ends with result `success` and the marker on disk. -/
theorem c1_witness :
    (runOps [.startRunning "a1" "local" 60 sampleOwner [] 1714570000,
             .runSuccess "a1" 1714570060]).state.result =
      .success (formatTimestamp 1714570060) ∧
    (runOps [.startRunning "a1" "local" 60 sampleOwner [] 1714570000,
             .runSuccess "a1" 1714570060]).marker = true :=
  ⟨by decide,
   c1_success_marker_durability
     [.startRunning "a1" "local" 60 sampleOwner [] 1714570000,
      .runSuccess "a1" 1714570060]
     (formatTimestamp 1714570060) (by decide)⟩

end Huldra

namespace Huldra

theorem terminalize_parts (s : HuldraState) (a : StateAttempt)
    (ts rsn : String) (now : Inst) :
    ∃ att : StateAttempt, terminalize s a ts rsn now =
      .ok { s with
              attempt := some att
              result := (if (if ts = "success" then "crashed" else ts) = "failed"
                then StateResult.failed else StateResult.incomplete) } ∧
      att.phase.status =
        (if (if ts = "success" then "crashed" else ts) = "failed" then "failed"
         else if ts = "cancelled" then "cancelled"
         else if ts = "preempted" then "preempted" else "crashed") := by
  unfold terminalize
  by_cases h1 : ts = "success"
  · simp only [h1, if_true]
    exact ⟨_, rfl, rfl⟩
  · simp only [h1, if_false]
    by_cases h2 : ts = "failed"
    · simp only [h2, if_true]
      exact ⟨_, rfl, rfl⟩
    · simp only [h2, if_false]
      by_cases h3 : ts = "cancelled"
      · simp only [h3, if_true]
        exact ⟨_, rfl, rfl⟩
      · simp only [h3, if_false]
        by_cases h4 : ts = "preempted"
        · simp only [h4, if_true]
          exact ⟨_, rfl, rfl⟩
        · simp only [h4, if_false]
          exact ⟨_, rfl, rfl⟩

/-- Counterexample to C5 as stated: a probe verdict `failed` is
terminalized (attempt `failed`, result `failed`) but `.compute.lock` is
NOT deleted — the unlink set is `{crashed, cancelled, preempted}` only,
so the returned lock flag is still `true`. -/
theorem c5_counterexample :
    (reconcile
        { marker_exists := false, this_host := "workhost",
          pid_alive := fun _ => true,
          probe := some (fun _ => .ok { terminal_status := some "failed"
                                        reason := some "scheduler:FAILED"
                                        extra := [] }),
          now := 1714570000 }
        { result := .incomplete, attempt := some (sampleAttempt "submitit" .queued) }
        true).toOption.map
      (fun p => (p.1.attempt.map (fun x => x.phase.status), p.1.result, p.2)) =
      some (some "failed", .failed, true) := by rfl

/-- C5 (amended): when the reconciler chooses a terminal
`(terminal_status, reason)` for an active attempt, it rewrites the
attempt as the corresponding terminal variant (a chosen `success` is
coerced to `crashed`; unknown strings also fall through to `crashed`),
sets `result = failed` exactly when the terminal is `failed` (otherwise
`incomplete`), and deletes `.compute.lock` only when the resulting
attempt status is `crashed`, `cancelled` or `preempted` — for a `failed`
terminal the lock file is left in place. -/
theorem c5_terminal_rewrite_and_lock (env : ReconcileEnv) (s : HuldraState)
    (lock : Bool) (a a' : StateAttempt) (ts rsn : String)
    (ha : s.attempt = some a) (hact : a.phase.isActive = true)
    (hm : env.marker_exists = false)
    (hchoice : chooseTerminal env s a = .ok (some (ts, rsn), a')) :
    ∃ s2, reconcile env s lock =
        .ok (s2, if (if ts = "success" then "crashed" else ts) = "failed"
          then lock else false) ∧
      s2.result = (if (if ts = "success" then "crashed" else ts) = "failed"
        then .failed else .incomplete) ∧
      (s2.attempt.map (fun x => x.phase.status)) = some
        (if (if ts = "success" then "crashed" else ts) = "failed" then "failed"
         else if ts = "cancelled" then "cancelled"
         else if ts = "preempted" then "preempted" else "crashed") := by
  have hmut : reconcileMutate env s = terminalize s a' ts rsn env.now := by
    rw [reconcileMutate_active_nomarker env s a ha hact hm, hchoice]
    rfl
  obtain ⟨att, hterm, hstat⟩ := terminalize_parts s a' ts rsn env.now
  refine ⟨stamp env.now { s with
    attempt := some att
    result := (if (if ts = "success" then "crashed" else ts) = "failed"
      then StateResult.failed else StateResult.incomplete) }, ?_, ?_, ?_⟩
  · unfold reconcile runUpdate
    rw [hmut, hterm]
    simp only [Except.map]
    have hunlink : (["crashed", "cancelled", "preempted"].contains
        att.phase.status) =
        !(if (if ts = "success" then "crashed" else ts) = "failed"
          then true else false) := by
      rw [hstat]
      by_cases h2 : (if ts = "success" then "crashed" else ts) = "failed"
      · simp only [h2, if_true]
        rfl
      · simp only [h2, if_false]
        by_cases h3 : ts = "cancelled"
        · simp only [h3, if_true]
          rfl
        · simp only [h3, if_false]
          by_cases h4 : ts = "preempted"
          · simp only [h4, if_true]
            rfl
          · simp only [h4, if_false]
            rfl
    simp only [stamp, hunlink]
    by_cases h2 : (if ts = "success" then "crashed" else ts) = "failed"
    · simp only [h2, if_true]
      rfl
    · simp only [h2, if_false]
      rfl
  · rfl
  · simp only [stamp, Option.map, hstat]

end Huldra

namespace Huldra

/-- Witness for the amended C5: a concrete `failed` probe verdict on a
queued submitit attempt yields a failed attempt, `result = failed`, and
the compute lock still present. -/
theorem c5_witness :
    ∃ s2, reconcile
        { marker_exists := false, this_host := "workhost",
          pid_alive := fun _ => true,
          probe := some (fun _ => .ok { terminal_status := some "failed"
                                        reason := some "scheduler:FAILED"
                                        extra := [] }),
          now := 1714570000 }
        { result := .incomplete, attempt := some (sampleAttempt "submitit" .queued) }
        true = .ok (s2, true) ∧
      s2.result = .failed ∧
      (s2.attempt.map (fun x => x.phase.status)) = some "failed" := by
  have h := c5_terminal_rewrite_and_lock
    { marker_exists := false, this_host := "workhost",
      pid_alive := fun _ => true,
      probe := some (fun _ => .ok { terminal_status := some "failed"
                                    reason := some "scheduler:FAILED"
                                    extra := [] }),
      now := 1714570000 }
    { result := .incomplete, attempt := some (sampleAttempt "submitit" .queued) }
    true
    (sampleAttempt "submitit" .queued)
    { sampleAttempt "submitit" .queued with
      scheduler := [("reason", "scheduler:FAILED")] }
    "failed" "scheduler:FAILED"
    rfl (by decide) rfl (by rfl)
  exact h

end Huldra

namespace Gren

/-- C9 evaluated at its failing input (`policy="move"`, `F` successful
with payload `value.txt`): the payload is moved and `F` gets a
`migrated`-kind record, but the record written on `T` carries
`kind="alias"` — the literal in the `MigrationRecord(...)` call in
`gren/migrate.py`, for every policy — not `"moved"`, and `F`'s state
result is left as `success` (merely copied into `T`), never set to
`migrated` (`_write_migrated_state` runs only for the alias policy, and
on `T`).  The repository's own test `test_migrate_move_transfers_payload`
asserts `kind == "moved"` on `T` and a migrated result on `F`, agreeing
with the claim against the code. -/
theorem c9_move_divergence :
    (migrate
        { payload := ["value.txt"],
          state := { result := .success "2024-05-01T10:00:00+00:00" },
          marker := true, migration := none }
        {} "move" "old.ns" "h1" "new.ns" "h2" none none
        "2024-05-02T00:00:00+00:00").toOption.map
      (fun r => (r.2.1.migration.map (fun m => m.kind),
                 r.1.migration.map (fun m => m.kind),
                 r.1.state.result,
                 r.2.1.payload,
                 r.1.payload)) =
      some (some "alias", some "migrated",
            .success "2024-05-01T10:00:00+00:00", ["value.txt"], []) := by rfl

end Gren

namespace HuldraSerializer

mutual

/-- No dict (or chz object, where chz itself forbids it) in the value
carries a field named `__class__`: such dicts are re-interpreted as
class-instance encodings by `from_dict`. -/
def markerFree : HVal → Bool
  | .vnull => true
  | .vbool _ => true
  | .vint _ => true
  | .vstr _ => true
  | .vpath _ => true
  | .venum _ => true
  | .vlist xs => markerFreeList xs
  | .vtuple xs => markerFreeList xs
  | .vdict kvs => markerFreeFields kvs
  | .vchz _ fs => markerFreeFields fs

/-- Marker freedom of list elements. -/
def markerFreeList : List HVal → Bool
  | [] => true
  | x :: xs => markerFree x && markerFreeList xs

/-- Marker freedom of dict / chz fields (keys must differ from the
class marker). -/
def markerFreeFields : List (String × HVal) → Bool
  | [] => true
  | (k, v) :: rest =>
    !(k == "__class__") && markerFree v && markerFreeFields rest

end

mutual

/-- Value produced by `from_dict(to_dict(v))` on marker-free input:
tuples have become lists, paths outside path-typed chz fields have
become strings, and declared path-typed chz fields are re-coerced. -/
def roundtripVal (tbl : ClassTable) : HVal → HVal
  | .vnull => .vnull
  | .vbool b => .vbool b
  | .vint n => .vint n
  | .vstr s => .vstr s
  | .vpath s => .vstr s
  | .venum c => .venum c
  | .vlist xs => .vlist (roundtripList tbl xs)
  | .vtuple xs => .vlist (roundtripList tbl xs)
  | .vdict kvs => .vdict (roundtripFields tbl kvs)
  | .vchz c fs =>
    .vchz c (coercePathFields
      (((tbl.find? (fun p => p.1 = c)).map (fun p => p.2)).getD [])
      (roundtripFields tbl fs))

/-- Roundtrip of list elements. -/
def roundtripList (tbl : ClassTable) : List HVal → List HVal
  | [] => []
  | x :: xs => roundtripVal tbl x :: roundtripList tbl xs

/-- Roundtrip of dict / chz field values. -/
def roundtripFields (tbl : ClassTable) :
    List (String × HVal) → List (String × HVal)
  | [] => []
  | (k, v) :: rest => (k, roundtripVal tbl v) :: roundtripFields tbl rest

end

end HuldraSerializer

namespace HuldraSerializer

theorem assocLookup_cons (p : String × HVal) (l : List (String × HVal))
    (k : String) :
    assocLookup (p :: l) k = if p.1 = k then some p.2 else assocLookup l k := by
  by_cases h : p.1 = k
  · simp [assocLookup, List.find?_cons_of_pos, h]
  · simp [assocLookup, List.find?_cons_of_neg, h]

theorem assocLookup_toDictFields_none :
    ∀ kvs : List (String × HVal), markerFreeFields kvs = true →
      assocLookup (toDictFields kvs) "__class__" = none := by
  intro kvs
  induction kvs with
  | nil => intro _; rfl
  | cons p rest ih =>
    obtain ⟨k, v⟩ := p
    intro h
    rw [markerFreeFields] at h
    simp only [Bool.and_eq_true] at h
    obtain ⟨⟨hk, _⟩, hrest⟩ := h
    have hk' : ¬(k = "__class__") := by simpa using hk
    rw [toDictFields, assocLookup_cons]
    simp only [hk', if_false]
    exact ih hrest

end HuldraSerializer

namespace HuldraSerializer

mutual

theorem fromDict_toDict (tbl : ClassTable) :
    (v : HVal) → markerFree v = true →
      fromDict tbl (toDict v) = .ok (roundtripVal tbl v)
  | .vnull, _ => rfl
  | .vbool _, _ => rfl
  | .vint _, _ => rfl
  | .vstr _, _ => rfl
  | .vpath _, _ => rfl
  | .venum _, _ => rfl
  | .vlist xs, h => by
    have h2 := fromDictList_toDictList tbl xs h
    show fromDict tbl (.vlist (toDictList xs)) = _
    unfold fromDict
    rw [h2]
    rfl
  | .vtuple xs, h => by
    have h2 := fromDictList_toDictList tbl xs h
    show fromDict tbl (.vlist (toDictList xs)) = _
    unfold fromDict
    rw [h2]
    rfl
  | .vdict kvs, h => by
    have h2 := fromDictFields_toDictFields tbl kvs h
    show fromDict tbl (.vdict (toDictFields kvs)) = _
    unfold fromDict
    rw [assocLookup_toDictFields_none kvs h, h2]
    rfl
  | .vchz c fs, h => by
    have h2 := fromDictKwargs_toDictFields tbl fs h
    show fromDict tbl
      (.vdict (("__class__", HVal.vstr c) :: toDictFields fs)) = _
    unfold fromDict
    rw [assocLookup_cons]
    simp only [if_pos rfl]
    rw [show fromDictKwargs tbl
        (("__class__", HVal.vstr c) :: toDictFields fs) =
      fromDictKwargs tbl (toDictFields fs) from by rw [fromDictKwargs]; simp]
    rw [h2]
    rfl

theorem fromDictList_toDictList (tbl : ClassTable) :
    (xs : List HVal) → markerFreeList xs = true →
      fromDictList tbl (toDictList xs) = .ok (roundtripList tbl xs)
  | [], _ => rfl
  | x :: xs, h => by
    rw [markerFreeList, Bool.and_eq_true] at h
    have hx := fromDict_toDict tbl x h.1
    have hxs := fromDictList_toDictList tbl xs h.2
    show fromDictList tbl (toDict x :: toDictList xs) = _
    unfold fromDictList
    rw [hx, hxs]
    rfl

theorem fromDictFields_toDictFields (tbl : ClassTable) :
    (kvs : List (String × HVal)) → markerFreeFields kvs = true →
      fromDictFields tbl (toDictFields kvs) = .ok (roundtripFields tbl kvs)
  | [], _ => rfl
  | (k, v) :: rest, h => by
    rw [markerFreeFields, Bool.and_eq_true, Bool.and_eq_true] at h
    have hv := fromDict_toDict tbl v h.1.2
    have hrest := fromDictFields_toDictFields tbl rest h.2
    show fromDictFields tbl ((k, toDict v) :: toDictFields rest) = _
    unfold fromDictFields
    rw [hv, hrest]
    rfl

theorem fromDictKwargs_toDictFields (tbl : ClassTable) :
    (kvs : List (String × HVal)) → markerFreeFields kvs = true →
      fromDictKwargs tbl (toDictFields kvs) = .ok (roundtripFields tbl kvs)
  | [], _ => rfl
  | (k, v) :: rest, h => by
    rw [markerFreeFields, Bool.and_eq_true, Bool.and_eq_true] at h
    have hk : ¬(k = "__class__") := by simpa using h.1.1
    have hv := fromDict_toDict tbl v h.1.2
    have hrest := fromDictKwargs_toDictFields tbl rest h.2
    show fromDictKwargs tbl ((k, toDict v) :: toDictFields rest) = _
    unfold fromDictKwargs
    simp only [hk, if_false]
    rw [hv, hrest]
    rfl

end

end HuldraSerializer

namespace HuldraSerializer

theorem coercePathFields_cons (pf : List String) (p : String × HVal)
    (l : List (String × HVal)) :
    coercePathFields pf (p :: l) =
      (if pf.contains p.1 then
        match p.2 with
        | .vstr s => (p.1, HVal.vpath s)
        | v => (p.1, v)
      else p) :: coercePathFields pf l := rfl

theorem canonicalizePublicFields_coerce (pf : List String) :
    ∀ l, canonicalizePublicFields (coercePathFields pf l) =
      canonicalizePublicFields l := by
  intro l
  induction l with
  | nil => rfl
  | cons p rest ih =>
    obtain ⟨k, v⟩ := p
    have step : ∀ w : HVal, canonicalize w = canonicalize v →
        canonicalizePublicFields ((k, w) :: coercePathFields pf rest) =
          canonicalizePublicFields ((k, v) :: rest) := by
      intro w hw
      rw [canonicalizePublicFields, canonicalizePublicFields]
      by_cases hk : startsWithUnderscore k
      · simp only [hk, if_true]
        exact ih
      · simp only [hk, Bool.false_eq_true, if_false]
        rw [hw, ih]
    rw [coercePathFields_cons]
    by_cases hc : pf.contains k
    · simp only [hc, if_true]
      cases v <;> exact step _ rfl
    · simp only [hc, Bool.false_eq_true, if_false]
      exact step v rfl

mutual

theorem canonicalize_roundtrip (tbl : ClassTable) :
    (v : HVal) → canonicalize (roundtripVal tbl v) = canonicalize v
  | .vnull => rfl
  | .vbool _ => rfl
  | .vint _ => rfl
  | .vstr _ => rfl
  | .vpath _ => rfl
  | .venum _ => rfl
  | .vlist xs => by
    show canonicalize (.vlist (roundtripList tbl xs)) = _
    rw [canonicalize, canonicalize, canonicalizeList_roundtrip tbl xs]
  | .vtuple xs => by
    show canonicalize (.vlist (roundtripList tbl xs)) = _
    rw [canonicalize, canonicalize, canonicalizeList_roundtrip tbl xs]
  | .vdict kvs => by
    show canonicalize (.vdict (roundtripFields tbl kvs)) = _
    rw [canonicalize, canonicalize, canonicalizeFields_roundtrip tbl kvs]
  | .vchz c fs => by
    show canonicalize (.vchz c (coercePathFields
      (((tbl.find? (fun p => p.1 = c)).map (fun p => p.2)).getD [])
      (roundtripFields tbl fs))) = _
    rw [canonicalize, canonicalize, canonicalizePublicFields_coerce,
      canonicalizePublicFields_roundtrip tbl fs]

theorem canonicalizeList_roundtrip (tbl : ClassTable) :
    (xs : List HVal) →
      canonicalizeList (roundtripList tbl xs) = canonicalizeList xs
  | [] => rfl
  | x :: xs => by
    show canonicalizeList (roundtripVal tbl x :: roundtripList tbl xs) = _
    rw [canonicalizeList, canonicalizeList, canonicalize_roundtrip tbl x,
      canonicalizeList_roundtrip tbl xs]

theorem canonicalizeFields_roundtrip (tbl : ClassTable) :
    (kvs : List (String × HVal)) →
      canonicalizeFields (roundtripFields tbl kvs) = canonicalizeFields kvs
  | [] => rfl
  | (k, v) :: rest => by
    show canonicalizeFields ((k, roundtripVal tbl v) :: roundtripFields tbl rest) = _
    rw [canonicalizeFields, canonicalizeFields, canonicalize_roundtrip tbl v,
      canonicalizeFields_roundtrip tbl rest]

theorem canonicalizePublicFields_roundtrip (tbl : ClassTable) :
    (kvs : List (String × HVal)) →
      canonicalizePublicFields (roundtripFields tbl kvs) =
        canonicalizePublicFields kvs
  | [] => rfl
  | (k, v) :: rest => by
    show canonicalizePublicFields
      ((k, roundtripVal tbl v) :: roundtripFields tbl rest) = _
    rw [canonicalizePublicFields, canonicalizePublicFields]
    by_cases hk : startsWithUnderscore k
    · simp only [hk, if_true]
      exact canonicalizePublicFields_roundtrip tbl rest
    · simp only [hk, Bool.false_eq_true, if_false]
      rw [canonicalize_roundtrip tbl v, canonicalizePublicFields_roundtrip tbl rest]

end

end HuldraSerializer

namespace HuldraSerializer

theorem canonicalizePublicFields_private (n : String) (v : HVal)
    (hn : startsWithUnderscore n = true) :
    ∀ fs1 fs2 : List (String × HVal),
      canonicalizePublicFields (fs1 ++ (n, v) :: fs2) =
        canonicalizePublicFields (fs1 ++ fs2) := by
  intro fs1 fs2
  induction fs1 with
  | nil =>
    show canonicalizePublicFields ((n, v) :: fs2) = _
    rw [canonicalizePublicFields]
    simp [hn]
  | cons p rest ih =>
    obtain ⟨k, w⟩ := p
    show canonicalizePublicFields ((k, w) :: (rest ++ (n, v) :: fs2)) =
      canonicalizePublicFields ((k, w) :: (rest ++ fs2))
    rw [canonicalizePublicFields, canonicalizePublicFields]
    by_cases hk : startsWithUnderscore k
    · simp only [hk, if_true]
      exact ih
    · simp only [hk, Bool.false_eq_true, if_false]
      rw [ih]

theorem blakeCompress_length (h m : List Nat) (t : Nat) (l : Bool) :
    (blakeCompress h m t l).length = 8 := by
  simp [blakeCompress]

theorem blake2sLoop_length_aux (n : Nat) :
    ∀ (h msg : List Nat) (p : Nat), msg.length ≤ n + 64 →
      (blake2sLoop h msg p).length = 8 := by
  induction n with
  | zero =>
    intro h msg p hm
    unfold blake2sLoop
    have h64 : msg.length ≤ 64 := by omega
    simp [h64, blakeCompress_length]
  | succ k ih =>
    intro h msg p hm
    unfold blake2sLoop
    by_cases h64 : msg.length ≤ 64
    · simp [h64, blakeCompress_length]
    · simp only [h64, if_false]
      apply ih
      rw [List.length_drop]
      omega

theorem blake2sLoop_length (h msg : List Nat) (p : Nat) :
    (blake2sLoop h msg p).length = 8 :=
  blake2sLoop_length_aux msg.length h msg p (by omega)

theorem flatten_wordLEBytes_length (l : List Nat) :
    ((l.map wordLEBytes).flatten).length = 4 * l.length := by
  induction l with
  | nil => rfl
  | cons x xs ih =>
    simp only [List.map_cons, List.flatten_cons, List.length_append, ih,
      List.length_cons, wordLEBytes]
    simp
    omega

theorem blake2s_length (msg : List Nat) : (blake2s msg 10).length = 10 := by
  unfold blake2s
  rw [List.length_take, flatten_wordLEBytes_length, blake2sLoop_length]
  decide

/-- Lowercase hexadecimal alphabet. -/
def hexCharList : List Char :=
  "0123456789abcdef".data

theorem hexDigit_mem (n : Nat) : hexDigit n ∈ hexCharList := by
  match n with
  | 0 => decide
  | 1 => decide
  | 2 => decide
  | 3 => decide
  | 4 => decide
  | 5 => decide
  | 6 => decide
  | 7 => decide
  | 8 => decide
  | 9 => decide
  | 10 => decide
  | 11 => decide
  | 12 => decide
  | 13 => decide
  | 14 => decide
  | m + 15 =>
    have h : hexDigit (m + 15) = 'f' := by
      unfold hexDigit
      repeat rw [if_neg (by omega)]
    rw [h]
    decide

theorem byteToHex_data (b : Nat) :
    (byteToHex b).data = [hexDigit (b / 16 % 16), hexDigit (b % 16)] := rfl

theorem hexOfBytes_data (bs : List Nat) :
    (hexOfBytes bs).data = (bs.map (fun b => (byteToHex b).data)).flatten := by
  unfold hexOfBytes
  rw [String.data_join, List.map_map]
  rfl

theorem hexOfBytes_length (bs : List Nat) :
    (hexOfBytes bs).length = 2 * bs.length := by
  rw [show (hexOfBytes bs).length = (hexOfBytes bs).data.length from rfl,
    hexOfBytes_data]
  induction bs with
  | nil => rfl
  | cons b rest ih =>
    rw [List.map_cons, List.flatten_cons, List.length_append, ih,
      show ((byteToHex b).data).length = 2 from rfl, List.length_cons]
    omega

theorem hexOfBytes_mem (bs : List Nat) :
    ∀ ch ∈ (hexOfBytes bs).data, ch ∈ hexCharList := by
  rw [hexOfBytes_data]
  intro ch hch
  rw [List.mem_flatten] at hch
  obtain ⟨l, hl, hchl⟩ := hch
  rw [List.mem_map] at hl
  obtain ⟨b, _, rfl⟩ := hl
  rw [byteToHex_data] at hchl
  simp only [List.mem_cons, List.not_mem_nil, or_false] at hchl
  rcases hchl with h | h <;> (subst h; exact hexDigit_mem _)

end HuldraSerializer

namespace HuldraSerializer

/-- Sample class table (one importable configuration class with one
Path-typed field). -/
def sampleTable : ClassTable := [("my_project.Cfg", ["p"])]

/-- Sample configuration object with a path field, an int field and a
private field. -/
def sampleCfg : HVal :=
  .vchz "my_project.Cfg"
    [("p", .vpath "/data/in.bin"), ("k", .vint 3), ("_secret", .vint 9)]

/-- Counterexample to C8 as stated: `from_dict(to_dict(c))` is not even
defined for every configuration object `c` — a field holding a plain
dict whose `__class__` key maps to a non-string makes `from_dict` raise
(`.rpartition` on a non-string), so the claimed hash equality fails at
this input. -/
theorem c8_counterexample :
    fromDict [] (toDict (.vchz "my_project.Cfg"
      [("m", .vdict [("__class__", .vint 1)])])) =
      .error "class marker is not a string" := rfl

/-- C8 (amended): for every configuration object `c` none of whose dicts
carries a `__class__` key, `compute_hash (from_dict (to_dict c)) =
compute_hash c`; fields whose names begin with `_` never influence
`compute_hash`; and the digest is exactly the BLAKE2s-10 hash of the
canonical JSON encoding (sorted keys, no whitespace) of the
canonicalized object, rendered as 20 lowercase hex characters. -/
theorem c8_fingerprint_roundtrip_private_digest
    (tbl : ClassTable) (c : HVal) (h : markerFree c = true)
    (cls n : String) (v : HVal) (fs1 fs2 : List (String × HVal))
    (hn : startsWithUnderscore n = true) (d : HVal) :
    (∃ c', fromDict tbl (toDict c) = .ok c' ∧
      compute_hash c' = compute_hash c) ∧
    compute_hash (.vchz cls (fs1 ++ (n, v) :: fs2)) =
      compute_hash (.vchz cls (fs1 ++ fs2)) ∧
    compute_hash d =
      hexOfBytes (blake2s (strBytes (jsonDumps (canonicalize d))) 10) ∧
    (compute_hash d).length = 20 ∧
    (∀ ch ∈ (compute_hash d).data, ch ∈ hexCharList) := by
  refine ⟨⟨roundtripVal tbl c, fromDict_toDict tbl c h, ?_⟩, ?_, rfl, ?_, ?_⟩
  · unfold compute_hash
    rw [canonicalize_roundtrip]
  · unfold compute_hash
    rw [canonicalize, canonicalize,
      canonicalizePublicFields_private n v hn fs1 fs2]
  · unfold compute_hash
    rw [hexOfBytes_length, blake2s_length]
  · unfold compute_hash
    exact hexOfBytes_mem _

/-- Witness for the amended C8 at a concrete configuration object with a
path field, a public int field and a private field. -/
theorem c8_witness :
    (∃ c', fromDict sampleTable (toDict sampleCfg) = .ok c' ∧
      compute_hash c' = compute_hash sampleCfg) ∧
    compute_hash (.vchz "my_project.Cfg"
        [("k", .vint 3), ("_secret", .vint 9)]) =
      compute_hash (.vchz "my_project.Cfg" [("k", .vint 3)]) ∧
    compute_hash (.vint 5) =
      hexOfBytes (blake2s (strBytes (jsonDumps (canonicalize (.vint 5)))) 10) ∧
    (compute_hash (.vint 5)).length = 20 ∧
    (∀ ch ∈ (compute_hash (.vint 5)).data, ch ∈ hexCharList) := by
  have h := c8_fingerprint_roundtrip_private_digest sampleTable sampleCfg
    (by decide) "my_project.Cfg" "_secret" (.vint 9) [("k", .vint 3)] []
    (by decide) (.vint 5)
  exact h

end HuldraSerializer
